import Mathlib

/-!
Shallow embedding of `wgpu-core/src/device/queue.rs` (the submission pipeline:
`PendingWrites`, `queue_write_buffer`, `queue_submit`).

Conventions of the embedding:
* Rust machine integers and opaque backend handles (hal buffers, command
  buffers, fences, semaphores, memory blocks) become `Nat`; fresh handles are
  drawn from an explicit per-device counter.
* Storages indexed by ids (`hub.buffers`, `hub.command_buffers`, ...) become
  association lists `List (Nat × _)`; the Rust indexing panic on a missing id
  becomes an `Except.error`.
* Every `panic!` / failed `assert!` / `unwrap` on user-facing validation
  becomes an `Except.error` carrying the same identifying data; external
  allocator failures (treated as device loss by the source) are not modelled,
  i.e. allocation always succeeds.
* Externally observable actions of `queue_submit` (hardware submission,
  maintenance pass, life-tracker hand-off, callback firing, diagnostics) are
  recorded in an event trace, in the order the source performs them.
-/

namespace WgpuQueue

/-- State of a buffer's host mapping, from `resource::BufferMapState`:
`idle` (no mapping), `waiting` (a map request is pending, not yet resolved),
`active` (the buffer is currently host-mapped). -/
inductive BufferMapState where
  | idle
  | waiting
  | active
deriving DecidableEq

/-- A resource's Life Guard: the last submission index that uses the resource,
plus whether the resource still has outstanding external references.
Modelled from the spec: the `LifeGuard` type itself lives outside the
source file under analysis (spec §3: per-resource `last_use`, and `use_at(n)`
returns whether the resource already had outstanding references). -/
structure LifeGuard where
  last_use : Nat
  has_refs : Bool
deriving DecidableEq

/-- Modelled from the spec: `LifeGuard::use_at` advances `last_use` to the
given submission index and reports whether the resource already had
outstanding references before the call. -/
def LifeGuard.use_at (g : LifeGuard) (n : Nat) : LifeGuard × Bool :=
  ({ g with last_use := n }, g.has_refs)

/-- Association-list lookup over `Nat` keys (storage indexing). -/
def lookupAssoc {α : Type} : List (Nat × α) → Nat → Option α
  | [], _ => none
  | (k, v) :: rest, k2 => if k = k2 then some v else lookupAssoc rest k2

/-- Association-list update: replaces the value at an existing key. -/
def updateAssoc {α : Type} : List (Nat × α) → Nat → α → List (Nat × α)
  | [], _, _ => []
  | (k, v) :: rest, k2, v2 =>
    if k = k2 then (k, v2) :: rest else (k, v) :: updateAssoc rest k2 v2

/-- Association-list removal (`unregister`). -/
def removeAssoc {α : Type} (l : List (Nat × α)) (k : Nat) : List (Nat × α) :=
  l.filter (fun p => decide (p.1 ≠ k))

/-- `wgt::BufferUsage` bit flags (only the one the source checks). -/
def BufferUsage.COPY_DST : Nat := 8

/-- `resource::BufferUse` internal tracked-state flags (only the one used). -/
def BufferUse.COPY_DST : Nat := 8

/-- A raw hal buffer with its bound, written memory contents (the staging
buffers created by `queue_write_buffer` are raw `B::Buffer`s; they carry no
Life Guard or usage flags, only a handle and the bytes written through the
mapped memory). -/
structure HalBuffer where
  handle : Nat
  bytes : List Nat
deriving DecidableEq

/-- A synchronization barrier recorded by `pipeline_barrier`. -/
inductive Barrier where
  | hostWriteTransferRead (target : Nat)
  | bufferTransition (target : Nat) (oldState newState : Nat)
deriving DecidableEq

/-- A command recorded into a raw command buffer (only the commands the
source records: `pipeline_barrier` and `copy_buffer`). -/
inductive Cmd where
  | pipelineBarrier (barriers : List Barrier)
  | copyBuffer (src dst : Nat) (srcOffset dstOffset size : Nat)
deriving DecidableEq

/-- A raw (hal) command buffer: its pool handle, recorded commands, and
whether `finish()` has been called on it. -/
structure RawCmdBuf where
  handle : Nat
  cmds : List Cmd
  is_finished : Bool
deriving DecidableEq

/-- The per-command-buffer tracker set: the ids it touched in each resource
category (driving the Life Guard updates of `queue_submit`) and the entry
states it expects for buffers and textures (driving barrier insertion). -/
structure TrackerSet where
  buffers : List Nat
  textures : List Nat
  views : List Nat
  bind_groups : List Nat
  samplers : List Nat
  compute_pipes : List Nat
  render_pipes : List Nat
  buffer_states : List (Nat × Nat)
  texture_states : List (Nat × Nat)
deriving DecidableEq

/-- Modelled from the spec: `TrackerSet::optimize` (§4.1) coalesces redundant
intermediate transitions into a minimal entry/exit pair; on this abstraction
(used-id sets and entry states only) the tracker is unchanged. -/
def TrackerSet.optimize (t : TrackerSet) : TrackerSet := t

/-- The device-wide tracker: current tracked state per buffer and texture. -/
structure DeviceTrackers where
  buffer_states : List (Nat × Nat)
  texture_states : List (Nat × Nat)
deriving DecidableEq

/-- Modelled from the spec: the Resource Tracker's `use_replace` (§4.1, the
tracker implementation lives outside the source file under analysis): look up
the current tracked state; if the requested state differs, record the new
state and return the (old, new) transition; otherwise return no transition.
A resource not yet tracked is adopted at the requested state. -/
def use_replace (states : List (Nat × Nat)) (id newState : Nat) :
    List (Nat × Nat) × Option (Nat × Nat) :=
  match lookupAssoc states id with
  | some old =>
    if old = newState then (states, none)
    else (updateAssoc states id newState, some (old, newState))
  | none => (states ++ [(id, newState)], none)

/-- Modelled from the spec: `CommandBuffer::insert_barriers` (§4.3 step d,
implementation outside the source file under analysis): merge the command
buffer's entry states into the device-wide tracker, emitting one transition
barrier per resource whose tracked state changes. -/
def insert_barriers (dev : DeviceTrackers) (cb : TrackerSet) :
    DeviceTrackers × List Barrier :=
  let fb := cb.buffer_states.foldl
    (fun (acc : List (Nat × Nat) × List Barrier) (p : Nat × Nat) =>
      let r := use_replace acc.1 p.1 p.2
      (r.1, acc.2 ++ (r.2.map (fun t => Barrier.bufferTransition p.1 t.1 t.2)).toList))
    (dev.buffer_states, [])
  let ft := cb.texture_states.foldl
    (fun (acc : List (Nat × Nat) × List Barrier) (p : Nat × Nat) =>
      let r := use_replace acc.1 p.1 p.2
      (r.1, acc.2 ++ (r.2.map (fun t => Barrier.bufferTransition p.1 t.1 t.2)).toList))
    (dev.texture_states, [])
  ({ buffer_states := fb.1, texture_states := ft.1 }, fb.2 ++ ft.2)

/-- A wgpu-level command buffer: its chain of raw command buffers, its private
tracker set, and the swap chain image it used (if any). -/
structure CommandBuffer where
  raw : List RawCmdBuf
  trackers : TrackerSet
  used_swap_chain : Option (Nat × Nat)
deriving DecidableEq

/-- A swap chain: the currently acquired view (if not yet dropped), the
framebuffers acquired against the current image, and its "ready" semaphore. -/
structure SwapChain where
  acquired_view_id : Option Nat
  acquired_framebuffers : List Nat
  semaphore : Nat
deriving DecidableEq

/-- A buffer resource: raw hal handle, creation usage flags (bit mask),
host-mapping state, and Life Guard. -/
structure Buffer where
  raw : Nat
  usage : Nat
  map_state : BufferMapState
  life_guard : LifeGuard
deriving DecidableEq

/-- `device.temp_suspected`: per-submission lists of resources whose last
reference disappeared during command-buffer processing. -/
structure SuspectedResources where
  buffers : List Nat
  textures : List Nat
  texture_views : List Nat
  bind_groups : List Nat
  samplers : List Nat
  compute_pipelines : List Nat
  render_pipelines : List Nat
deriving DecidableEq

/-- The cleared suspected-resources set (`temp_suspected.clear()`). -/
def SuspectedResources.empty : SuspectedResources :=
  ⟨[], [], [], [], [], [], []⟩

/-- `PendingWrites`: the optionally open deferred command buffer and the
temporary (staging buffer, memory block) pairs it references. -/
structure PendingWrites where
  command_buffer : Option RawCmdBuf
  temp_buffers : List (HalBuffer × Nat)
deriving DecidableEq

/-- A Life Tracker submission record: index, fence, suspected resources, and
the temporary buffers handed over from the pending writes. -/
structure SubmissionRecord where
  index : Nat
  fence : Nat
  suspected : SuspectedResources
  temp_buffers : List (HalBuffer × Nat)
deriving DecidableEq

/-- The Life Tracker: in-flight submission records in FIFO order (head is the
oldest) plus not-yet-ready mapping callbacks as (callback id, `last_use`). -/
structure LifeTracker where
  records : List SubmissionRecord
  pending_callbacks : List (Nat × Nat)
deriving DecidableEq

/-- Externally observable actions of the submission pipeline, recorded in the
order the source performs them. -/
inductive Event where
  | warnDroppedMapping (buffer_id : Nat)
  | hardwareSubmit (command_buffers : List Nat) (fence : Nat) (semaphores : List Nat)
  | afterSubmitInternal (handle : Nat) (index : Nat)
  | freeTempBuffer (handle : Nat)
  | maintainPass (callbacks : List Nat)
  | trackSubmission (index : Nat) (fence : Nat)
  | afterSubmit (cmb_id : Nat) (index : Nat)
  | locksReleased
  | fireCallbacks (callbacks : List Nat)
deriving DecidableEq

/-- The fatal (panic / assertion / indexing) failures of the two entry
points, carrying the identifying data the source panics with. -/
inductive QueueError where
  | unknownBuffer (id : Nat)
  | unknownResource (id : Nat)
  | unknownCommandBuffer (id : Nat)
  | unknownSwapChain (id : Nat)
  | writeUsageAssert (usage : Nat)
  | bufferPendingMapping (id : Nat)
  | swapChainOutputDropped (sc_id cmb_id : Nat)
  | emptyCommandBuffer (id : Nat)
deriving DecidableEq

/-- Result of the modelled maintenance pass. -/
structure MaintainResult where
  records : List SubmissionRecord
  pending_callbacks : List (Nat × Nat)
  trace : List Event
  callbacks : List Nat
deriving DecidableEq

/-- Modelled from the spec: the Life Tracker half of `Device::maintain`
(§4.4, implementation outside the source file under analysis): while the head
record's fence is signaled, free its temporary buffers, collect the mapping
callbacks whose `last_use` is at most its index, and pop it; stop at the
first unsignaled fence (strict FIFO). -/
def maintainLoop (signaled : List Nat) :
    List SubmissionRecord → List (Nat × Nat) → MaintainResult
  | [], pcbs => ⟨[], pcbs, [], []⟩
  | r :: rest, pcbs =>
    if r.fence ∈ signaled then
      let frees := r.temp_buffers.map (fun tb => Event.freeTempBuffer tb.1.handle)
      let ready := (pcbs.filter (fun cb => decide (cb.2 ≤ r.index))).map (fun cb => cb.1)
      let remaining := pcbs.filter (fun cb => decide (r.index < cb.2))
      let res := maintainLoop signaled rest remaining
      ⟨res.records, res.pending_callbacks, frees ++ res.trace, ready ++ res.callbacks⟩
    else ⟨r :: rest, pcbs, [], []⟩

/-- Modelled from the spec: `Device::maintain` with `wait = false` (the
non-blocking maintenance pass run once per `queue_submit`). -/
def maintain (signaled : List Nat) (lt : LifeTracker) : MaintainResult :=
  maintainLoop signaled lt.records lt.pending_callbacks

/-- The per-device state owned by the `Device` object. -/
structure Device where
  submission_index : Nat
  next_handle : Nat
  pending_writes : PendingWrites
  temp_suspected : SuspectedResources
  trackers : DeviceTrackers
  life_tracker : LifeTracker
  signaled_fences : List Nat
deriving DecidableEq

/-- The hub: the device plus all id-indexed resource storages. -/
structure Hub where
  device : Device
  buffers : List (Nat × Buffer)
  textures : List (Nat × LifeGuard)
  texture_views : List (Nat × LifeGuard)
  bind_groups : List (Nat × LifeGuard)
  samplers : List (Nat × LifeGuard)
  compute_pipelines : List (Nat × LifeGuard)
  render_pipelines : List (Nat × LifeGuard)
  command_buffers : List (Nat × CommandBuffer)
  swap_chains : List (Nat × SwapChain)
deriving DecidableEq

/-- `Global::queue_write_buffer`: validate the destination, advance its Life
Guard to the next submission index, create and fill a staging buffer of
exactly `data.length` bytes, record a barrier-then-copy into the (lazily
opened) pending-writes command buffer, and push the staging pair onto
`pending_writes.temp_buffers`.
Handle allocation: staging buffer = `next_handle`, its memory block =
`next_handle + 1`, a freshly opened command buffer = `next_handle + 2`. -/
def queue_write_buffer (dev : Device) (buffers : List (Nat × Buffer))
    (data : List Nat) (buffer_id : Nat) (buffer_offset : Nat) :
    Except QueueError (Device × List (Nat × Buffer)) :=
  match lookupAssoc buffers buffer_id with
  | none => .error (.unknownBuffer buffer_id)
  | some dst =>
    let ur := use_replace dev.trackers.buffer_states buffer_id BufferUse.COPY_DST
    if dst.usage &&& BufferUsage.COPY_DST = BufferUsage.COPY_DST then
      let last_submit_index := dev.submission_index
      let lg := dst.life_guard.use_at (last_submit_index + 1)
      let buffers2 := updateAssoc buffers buffer_id { dst with life_guard := lg.1 }
      let src_raw : HalBuffer := { handle := dev.next_handle, bytes := data }
      let memory := dev.next_handle + 1
      let comb := match dev.pending_writes.command_buffer with
        | some c => c
        | none => { handle := dev.next_handle + 2, cmds := [], is_finished := false }
      let comb2 := { comb with cmds := comb.cmds ++
        [ Cmd.pipelineBarrier (Barrier.hostWriteTransferRead src_raw.handle ::
            (ur.2.map (fun t => Barrier.bufferTransition buffer_id t.1 t.2)).toList),
          Cmd.copyBuffer src_raw.handle dst.raw 0 buffer_offset data.length ] }
      .ok ({ dev with
              trackers := { dev.trackers with buffer_states := ur.1 },
              next_handle := dev.next_handle + 3,
              pending_writes :=
                { command_buffer := some comb2,
                  temp_buffers :=
                    dev.pending_writes.temp_buffers ++ [(src_raw, memory)] } },
            buffers2)
    else .error (.writeUsageAssert dst.usage)

/-- The state threaded through the per-command-buffer loop of `queue_submit`
(the storages locked inside the exclusive section, the device-wide tracker,
the suspected set, the handle counter, the collected swap chain signals and
the diagnostic trace). -/
structure LoopState where
  buffers : List (Nat × Buffer)
  textures : List (Nat × LifeGuard)
  texture_views : List (Nat × LifeGuard)
  bind_groups : List (Nat × LifeGuard)
  samplers : List (Nat × LifeGuard)
  compute_pipelines : List (Nat × LifeGuard)
  render_pipelines : List (Nat × LifeGuard)
  command_buffers : List (Nat × CommandBuffer)
  swap_chains : List (Nat × SwapChain)
  trackers : DeviceTrackers
  temp_suspected : SuspectedResources
  next_handle : Nat
  signal_sems : List Nat
  trace : List Event
deriving DecidableEq

/-- The buffer pass of `queue_submit` (`for id in comb.trackers.buffers.used()`):
panic on a pending (`Waiting`) mapping; advance the Life Guard; if the buffer
had no outstanding references, unmap (with a warning) an `Active` mapping and
push the id onto the suspected list. -/
def processUsedBuffers (submit_index : Nat) :
    List Nat → List (Nat × Buffer) → List Nat → List Event →
    Except QueueError (List (Nat × Buffer) × List Nat × List Event)
  | [], buffers, suspected, trace => .ok (buffers, suspected, trace)
  | id :: rest, buffers, suspected, trace =>
    match lookupAssoc buffers id with
    | none => .error (.unknownBuffer id)
    | some b =>
      if b.map_state = .waiting then .error (.bufferPendingMapping id)
      else
        let lg := b.life_guard.use_at submit_index
        if lg.2 then
          processUsedBuffers submit_index rest
            (updateAssoc buffers id { b with life_guard := lg.1 }) suspected trace
        else
          let bt :=
            if b.map_state = .active then
              ({ b with life_guard := lg.1, map_state := .idle },
               trace ++ [Event.warnDroppedMapping id])
            else ({ b with life_guard := lg.1 }, trace)
          processUsedBuffers submit_index rest
            (updateAssoc buffers id bt.1) (suspected ++ [id]) bt.2

/-- The pass of `queue_submit` over one non-buffer resource category:
advance each Life Guard and collect newly unreferenced ids. -/
def processOtherResources (submit_index : Nat) :
    List Nat → List (Nat × LifeGuard) → List Nat →
    Except QueueError (List (Nat × LifeGuard) × List Nat)
  | [], storage, suspected => .ok (storage, suspected)
  | id :: rest, storage, suspected =>
    match lookupAssoc storage id with
    | none => .error (.unknownResource id)
    | some g =>
      let r := g.use_at submit_index
      processOtherResources submit_index rest (updateAssoc storage id r.1)
        (if r.2 then suspected else suspected ++ [id])

/-- Marks the last raw command buffer of a chain finished
(`comb.raw.last_mut().unwrap().finish()`); handles are unchanged. -/
def finishLast : List RawCmdBuf → List RawCmdBuf
  | [] => []
  | [c] => [{ c with is_finished := true }]
  | c :: c2 :: rest => c :: finishLast (c2 :: rest)

/-- The swap chain step of `queue_submit` for one command buffer
(`comb.used_swap_chain.take()`): assert the acquired view is still alive,
record a semaphore signal if the chain had no acquired framebuffers, and push
the command buffer's framebuffer. -/
def stepSwapChain (st : LoopState) (cmb_id : Nat) (comb : CommandBuffer) :
    Except QueueError (LoopState × CommandBuffer) :=
  match comb.used_swap_chain with
  | none => .ok (st, comb)
  | some scf =>
    match lookupAssoc st.swap_chains scf.1 with
    | none => .error (.unknownSwapChain scf.1)
    | some sc =>
      match sc.acquired_view_id with
      | none => .error (.swapChainOutputDropped scf.1 cmb_id)
      | some _ =>
        let st1 := if sc.acquired_framebuffers.isEmpty
          then { st with signal_sems := st.signal_sems ++ [scf.1] } else st
        let sc2 := { sc with
          acquired_framebuffers := sc.acquired_framebuffers ++ [scf.2] }
        .ok ({ st1 with swap_chains := updateAssoc st1.swap_chains scf.1 sc2 },
             { comb with used_swap_chain := none })

/-- One iteration of the `queue_submit` loop body for command buffer
`cmb_id`: swap chain bookkeeping, `optimize`, the seven Life Guard passes,
then the transition command buffer (fresh handle from the counter) stitched
in front of the recorded chain. -/
def processCommandBuffer (submit_index : Nat) (st : LoopState) (cmb_id : Nat) :
    Except QueueError LoopState :=
  match lookupAssoc st.command_buffers cmb_id with
  | none => .error (.unknownCommandBuffer cmb_id)
  | some comb0 =>
    match stepSwapChain st cmb_id comb0 with
    | .error e => .error e
    | .ok (st1, comb1) =>
      let comb := { comb1 with trackers := comb1.trackers.optimize }
      match processUsedBuffers submit_index comb.trackers.buffers st1.buffers
          st1.temp_suspected.buffers st1.trace with
      | .error e => .error e
      | .ok (buffers2, susp_b, trace2) =>
        match processOtherResources submit_index comb.trackers.textures
            st1.textures st1.temp_suspected.textures with
        | .error e => .error e
        | .ok (textures2, susp_t) =>
          match processOtherResources submit_index comb.trackers.views
              st1.texture_views st1.temp_suspected.texture_views with
          | .error e => .error e
          | .ok (views2, susp_v) =>
            match processOtherResources submit_index comb.trackers.bind_groups
                st1.bind_groups st1.temp_suspected.bind_groups with
            | .error e => .error e
            | .ok (bgs2, susp_bg) =>
              match processOtherResources submit_index comb.trackers.samplers
                  st1.samplers st1.temp_suspected.samplers with
              | .error e => .error e
              | .ok (samplers2, susp_s) =>
                match processOtherResources submit_index comb.trackers.compute_pipes
                    st1.compute_pipelines st1.temp_suspected.compute_pipelines with
                | .error e => .error e
                | .ok (cps2, susp_cp) =>
                  match processOtherResources submit_index comb.trackers.render_pipes
                      st1.render_pipelines st1.temp_suspected.render_pipelines with
                  | .error e => .error e
                  | .ok (rps2, susp_rp) =>
                    match comb.raw with
                    | [] => .error (.emptyCommandBuffer cmb_id)
                    | _ :: _ =>
                      let ib := insert_barriers st1.trackers comb.trackers
                      let transit : RawCmdBuf :=
                        { handle := st1.next_handle,
                          cmds := [Cmd.pipelineBarrier ib.2],
                          is_finished := true }
                      let comb2 := { comb with raw := transit :: finishLast comb.raw }
                      .ok { st1 with
                        buffers := buffers2,
                        textures := textures2,
                        texture_views := views2,
                        bind_groups := bgs2,
                        samplers := samplers2,
                        compute_pipelines := cps2,
                        render_pipelines := rps2,
                        command_buffers := updateAssoc st1.command_buffers cmb_id comb2,
                        trackers := ib.1,
                        temp_suspected :=
                          { buffers := susp_b,
                            textures := susp_t,
                            texture_views := susp_v,
                            bind_groups := susp_bg,
                            samplers := susp_s,
                            compute_pipelines := susp_cp,
                            render_pipelines := susp_rp },
                        next_handle := st1.next_handle + 1,
                        trace := trace2 }

/-- The full `queue_submit` loop over the caller-supplied command buffer ids,
in order. -/
def processAll (submit_index : Nat) :
    LoopState → List Nat → Except QueueError LoopState
  | st, [] => .ok st
  | st, id :: rest =>
    match processCommandBuffer submit_index st id with
    | .error e => .error e
    | .ok st2 => processAll submit_index st2 rest

/-- The raw command buffer handles of a stored command buffer (used to build
the hardware submission from the storage after the loop). -/
def rawHandlesOf (cbs : List (Nat × CommandBuffer)) (id : Nat) : List Nat :=
  ((lookupAssoc cbs id).map (fun c => c.raw.map (fun r => r.handle))).getD []

/-- The "ready" semaphore handle of a stored swap chain. -/
def semaphoreOf (scs : List (Nat × SwapChain)) (id : Nat) : Nat :=
  ((lookupAssoc scs id).map (fun s => s.semaphore)).getD 0

/-- The loop state at the start of `queue_submit`'s exclusive section: the
storages as locked from the hub, a cleared suspected set, no swap chain
signals and an empty trace. -/
def initLoopState (hub : Hub) : LoopState :=
  { buffers := hub.buffers,
    textures := hub.textures,
    texture_views := hub.texture_views,
    bind_groups := hub.bind_groups,
    samplers := hub.samplers,
    compute_pipelines := hub.compute_pipelines,
    render_pipelines := hub.render_pipelines,
    command_buffers := hub.command_buffers,
    swap_chains := hub.swap_chains,
    trackers := hub.device.trackers,
    temp_suspected := SuspectedResources.empty,
    next_handle := hub.device.next_handle,
    signal_sems := [],
    trace := [] }

/-- `Global::queue_submit`: take and finish the pending-writes command
buffer, allocate the next submission index, run the per-command-buffer loop,
submit the hardware submission (pending writes first, then each
transition/body chain) with a fresh fence, run one non-blocking maintenance
pass, hand the new submission record to the Life Tracker (draining the
pending temp buffers), return the command buffers to the pool, and fire the
collected callbacks after all locks are released. -/
def queue_submit (hub : Hub) (command_buffer_ids : List Nat) :
    Except QueueError (Hub × List Event) :=
  let dev := hub.device
  let pending_cb := dev.pending_writes.command_buffer.map
    (fun c => { c with is_finished := true })
  let submit_index := dev.submission_index + 1
  match processAll submit_index (initLoopState hub) command_buffer_ids with
  | .error e => .error e
  | .ok st =>
    let fence := st.next_handle
    let submission_cmdbufs :=
      (pending_cb.map (fun c => c.handle)).toList ++
        command_buffer_ids.flatMap (fun id => rawHandlesOf st.command_buffers id)
    let sem_handles := st.signal_sems.map (fun id => semaphoreOf st.swap_chains id)
    let tr1 := st.trace ++ [Event.hardwareSubmit submission_cmdbufs fence sem_handles]
    let tr2 := tr1 ++ (match pending_cb with
      | some c => [Event.afterSubmitInternal c.handle submit_index]
      | none => [])
    let m := maintain dev.signaled_fences dev.life_tracker
    let tr3 := tr2 ++ m.trace ++ [Event.maintainPass m.callbacks]
    let record : SubmissionRecord :=
      { index := submit_index,
        fence := fence,
        suspected := st.temp_suspected,
        temp_buffers := dev.pending_writes.temp_buffers }
    let life2 : LifeTracker :=
      { records := m.records ++ [record],
        pending_callbacks := m.pending_callbacks }
    let tr4 := tr3 ++ [Event.trackSubmission submit_index fence]
    let cbs2 := command_buffer_ids.foldl (fun acc id => removeAssoc acc id)
      st.command_buffers
    let tr5 := tr4 ++ command_buffer_ids.map (fun id => Event.afterSubmit id submit_index)
    let tr6 := tr5 ++ [Event.locksReleased, Event.fireCallbacks m.callbacks]
    .ok ({ device :=
            { submission_index := submit_index,
              next_handle := st.next_handle + 1,
              pending_writes := { command_buffer := none, temp_buffers := [] },
              temp_suspected := st.temp_suspected,
              trackers := st.trackers,
              life_tracker := life2,
              signaled_fences := dev.signaled_fences },
           buffers := st.buffers,
           textures := st.textures,
           texture_views := st.texture_views,
           bind_groups := st.bind_groups,
           samplers := st.samplers,
           compute_pipelines := st.compute_pipelines,
           render_pipelines := st.render_pipelines,
           command_buffers := cbs2,
           swap_chains := st.swap_chains },
          tr6)

/-- Whether an `Except` result is a success. -/
def exceptOk {ε α : Type} : Except ε α → Bool
  | .ok _ => true
  | .error _ => false

/-- The event trace of a `queue_submit` result (empty on a fatal failure,
where nothing observable happened). -/
def submitTrace (r : Except QueueError (Hub × List Event)) : List Event :=
  match r with
  | .ok p => p.2
  | .error _ => []

/-- The resulting hub of a successful `queue_submit` (the input on failure). -/
def submitHub (hub : Hub) (r : Except QueueError (Hub × List Event)) : Hub :=
  match r with
  | .ok p => p.1
  | .error _ => hub

/-- Recognizer for hardware-submission events. -/
def Event.isHardwareSubmit : Event → Bool
  | .hardwareSubmit _ _ _ => true
  | _ => false

/-- Recognizer for maintenance-pass events. -/
def Event.isMaintainPass : Event → Bool
  | .maintainPass _ => true
  | _ => false

/-- Recognizer for life-tracker hand-off events. -/
def Event.isTrackSubmission : Event → Bool
  | .trackSubmission _ _ => true
  | _ => false

/-- Recognizer for callback-firing events. -/
def Event.isFireCallbacks : Event → Bool
  | .fireCallbacks _ => true
  | _ => false

/-- Recognizer for dropped-mapping warnings. -/
def Event.isWarn : Event → Bool
  | .warnDroppedMapping _ => true
  | _ => false

/-- The swap chain ids used by the given command buffers, in order. -/
def usedSwapChains (cbs : List (Nat × CommandBuffer)) (ids : List Nat) : List Nat :=
  ids.filterMap (fun id => (lookupAssoc cbs id).bind (fun c => c.used_swap_chain.map (fun p => p.1)))

/-- Semantics of one recorded `copy_buffer` region applied to a byte-addressed
destination memory: bytes `[dstOffset, dstOffset + size)` come from the source
bytes starting at `srcOffset`; everything else is untouched. -/
def runCopy (srcBytes : List Nat) (srcOffset dstOffset size : Nat)
    (mem : Nat → Nat) : Nat → Nat :=
  fun i => if dstOffset ≤ i ∧ i < dstOffset + size
    then srcBytes.getD (srcOffset + (i - dstOffset)) 0
    else mem i

/-- A direct host write of `data` at `offset` into a byte-addressed memory. -/
def directWrite (data : List Nat) (offset : Nat) (mem : Nat → Nat) : Nat → Nat :=
  fun i => if offset ≤ i ∧ i < offset + data.length
    then data.getD (i - offset) 0
    else mem i

theorem lookupAssoc_updateAssoc_self {α : Type} (l : List (Nat × α)) (k : Nat)
    (v0 v : α) (h : lookupAssoc l k = some v0) :
    lookupAssoc (updateAssoc l k v) k = some v := by
  induction l with
  | nil => simp [lookupAssoc] at h
  | cons p rest ih =>
    obtain ⟨pk, pv⟩ := p
    by_cases hk : pk = k
    · simp [lookupAssoc, updateAssoc, hk]
    · simp [lookupAssoc, updateAssoc, hk] at h ⊢
      exact ih h

theorem lookupAssoc_updateAssoc_ne {α : Type} (l : List (Nat × α)) (k k2 : Nat)
    (v : α) (hne : k ≠ k2) :
    lookupAssoc (updateAssoc l k v) k2 = lookupAssoc l k2 := by
  induction l with
  | nil => simp [updateAssoc]
  | cons p rest ih =>
    obtain ⟨pk, pv⟩ := p
    by_cases hk : pk = k
    · subst hk
      simp [lookupAssoc, updateAssoc, hne]
    · simp [lookupAssoc, updateAssoc, hk]
      by_cases hk2 : pk = k2
      · simp [hk2]
      · simp [hk2, ih]

theorem runCopy_from_zero (data : List Nat) (offset : Nat) (mem : Nat → Nat) :
    runCopy data 0 offset data.length mem = directWrite data offset mem := by
  funext i
  simp [runCopy, directWrite]

/-- C6: `queue_write_buffer` fails with the usage assertion if and only if the
destination buffer was not created with the `COPY_DST` usage flag; with the
flag present the call succeeds (the assertion branch is unreachable). -/
theorem queue_write_buffer_usage_assert_iff (dev : Device)
    (buffers : List (Nat × Buffer)) (data : List Nat)
    (buffer_id buffer_offset : Nat) (dst : Buffer)
    (hdst : lookupAssoc buffers buffer_id = some dst) :
    (queue_write_buffer dev buffers data buffer_id buffer_offset =
        .error (.writeUsageAssert dst.usage) ↔
      ¬ dst.usage &&& BufferUsage.COPY_DST = BufferUsage.COPY_DST)
    ∧ (dst.usage &&& BufferUsage.COPY_DST = BufferUsage.COPY_DST →
      exceptOk (queue_write_buffer dev buffers data buffer_id buffer_offset) = true) := by
  by_cases h : dst.usage &&& BufferUsage.COPY_DST = BufferUsage.COPY_DST
  · simp [queue_write_buffer, hdst, h, exceptOk]
  · simp [queue_write_buffer, hdst, h]

/-- Witness for C6 at a concrete input: a destination with usage mask 4
(no `COPY_DST`) trips the assertion; with mask 8 the call succeeds. -/
theorem queue_write_buffer_usage_assert_iff_witness :
    (queue_write_buffer ⟨0, 30, ⟨none, []⟩, .empty, ⟨[], []⟩, ⟨[], []⟩, []⟩
        [(0, ⟨10, 4, .idle, ⟨0, true⟩⟩)] [1, 2] 0 0 =
      .error (.writeUsageAssert 4))
    ∧ exceptOk (queue_write_buffer ⟨0, 30, ⟨none, []⟩, .empty, ⟨[], []⟩, ⟨[], []⟩, []⟩
        [(0, ⟨10, 8, .idle, ⟨0, true⟩⟩)] [1, 2] 0 0) = true := by
  constructor
  · exact (queue_write_buffer_usage_assert_iff
      ⟨0, 30, ⟨none, []⟩, .empty, ⟨[], []⟩, ⟨[], []⟩, []⟩
      [(0, ⟨10, 4, .idle, ⟨0, true⟩⟩)] [1, 2] 0 0 ⟨10, 4, .idle, ⟨0, true⟩⟩
      (by decide)).1.mpr (by decide)
  · exact (queue_write_buffer_usage_assert_iff
      ⟨0, 30, ⟨none, []⟩, .empty, ⟨[], []⟩, ⟨[], []⟩, []⟩
      [(0, ⟨10, 8, .idle, ⟨0, true⟩⟩)] [1, 2] 0 0 ⟨10, 8, .idle, ⟨0, true⟩⟩
      (by decide)).2 (by decide)

/-- C2 counterexample: the staging buffer created by `queue_write_buffer` is
a raw buffer–memory pair with no Life Guard. At the concrete input below
(device submission index 5, handle counter 50, destination buffer id 0) the
call succeeds, the staging buffer appears only as the raw pair
`({handle := 50, bytes := [1,2,3]}, 51)` in `pending_writes.temp_buffers`,
the staging handle is bound to no Life-Guard-bearing buffer resource, and the
Life Guard that is advanced to `5 + 1` is the destination buffer's — so the
claim's statement about the staging buffer's Life Guard does not hold of the
code. -/
theorem staging_life_guard_counterexample :
    exceptOk (queue_write_buffer ⟨5, 50, ⟨none, []⟩, .empty, ⟨[], []⟩, ⟨[], []⟩, []⟩
      [(0, ⟨10, 8, .idle, ⟨0, true⟩⟩)] [1, 2, 3] 0 4) = true
    ∧ ((queue_write_buffer ⟨5, 50, ⟨none, []⟩, .empty, ⟨[], []⟩, ⟨[], []⟩, []⟩
        [(0, ⟨10, 8, .idle, ⟨0, true⟩⟩)] [1, 2, 3] 0 4).toOption.map
          (fun p => p.1.pending_writes.temp_buffers))
      = some [({ handle := 50, bytes := [1, 2, 3] }, 51)]
    ∧ ((queue_write_buffer ⟨5, 50, ⟨none, []⟩, .empty, ⟨[], []⟩, ⟨[], []⟩, []⟩
        [(0, ⟨10, 8, .idle, ⟨0, true⟩⟩)] [1, 2, 3] 0 4).toOption.map
          (fun p => lookupAssoc p.2 50))
      = some none
    ∧ ((queue_write_buffer ⟨5, 50, ⟨none, []⟩, .empty, ⟨[], []⟩, ⟨[], []⟩, []⟩
        [(0, ⟨10, 8, .idle, ⟨0, true⟩⟩)] [1, 2, 3] 0 4).toOption.map
          (fun p => (lookupAssoc p.2 0).map (fun b => b.life_guard.last_use)))
      = some (some 6) := by
  decide

/-- C2 (amended): after every successful `queue_write_buffer`, the
*destination* buffer's Life Guard `last_use` equals the device's submission
index at call time plus one (the write is attributed to the next submission);
the staging buffer itself is a raw buffer with no Life Guard. -/
theorem queue_write_buffer_advances_destination_life_guard (dev : Device)
    (buffers : List (Nat × Buffer)) (data : List Nat)
    (buffer_id buffer_offset : Nat) (dst : Buffer)
    (hdst : lookupAssoc buffers buffer_id = some dst)
    (husage : dst.usage &&& BufferUsage.COPY_DST = BufferUsage.COPY_DST) :
    ((queue_write_buffer dev buffers data buffer_id buffer_offset).toOption.map
        (fun p => (lookupAssoc p.2 buffer_id).map (fun b => b.life_guard.last_use)))
      = some (some (dev.submission_index + 1)) := by
  simp only [queue_write_buffer, hdst, husage, if_true, Except.toOption, Option.map]
  rw [lookupAssoc_updateAssoc_self buffers buffer_id dst _ hdst]
  simp [LifeGuard.use_at]

/-- Witness for C2's amended theorem at a concrete input. -/
theorem queue_write_buffer_advances_destination_life_guard_witness :
    ((queue_write_buffer ⟨5, 50, ⟨none, []⟩, .empty, ⟨[], []⟩, ⟨[], []⟩, []⟩
        [(0, ⟨10, 8, .idle, ⟨0, true⟩⟩)] [1, 2, 3] 0 4).toOption.map
        (fun p => (lookupAssoc p.2 0).map (fun b => b.life_guard.last_use)))
      = some (some 6) :=
  queue_write_buffer_advances_destination_life_guard
    ⟨5, 50, ⟨none, []⟩, .empty, ⟨[], []⟩, ⟨[], []⟩, []⟩
    [(0, ⟨10, 8, .idle, ⟨0, true⟩⟩)] [1, 2, 3] 0 4 ⟨10, 8, .idle, ⟨0, true⟩⟩
    (by decide) (by decide)

/-- C7: every successful `queue_write_buffer(data, destination, offset)`
allocates a staging buffer holding exactly `data` (size `data.length`, filled
from offset 0), and appends to the pending-writes command buffer a barrier
followed by a copy command from staging range `[0, len)` to destination range
`[offset, offset + len)`; executing that recorded copy on any destination
memory is byte-identical to a direct write of `data` at `offset`. -/
theorem queue_write_buffer_roundtrip (dev : Device)
    (buffers : List (Nat × Buffer)) (data : List Nat)
    (buffer_id buffer_offset : Nat) (dst : Buffer)
    (hdst : lookupAssoc buffers buffer_id = some dst)
    (husage : dst.usage &&& BufferUsage.COPY_DST = BufferUsage.COPY_DST) :
    ∃ dev2 buffers2 comb prev bs,
      queue_write_buffer dev buffers data buffer_id buffer_offset =
        .ok (dev2, buffers2)
      ∧ dev2.pending_writes.temp_buffers =
          dev.pending_writes.temp_buffers ++
            [({ handle := dev.next_handle, bytes := data }, dev.next_handle + 1)]
      ∧ dev2.pending_writes.command_buffer = some comb
      ∧ comb.cmds = prev ++
          [ Cmd.pipelineBarrier bs,
            Cmd.copyBuffer dev.next_handle dst.raw 0 buffer_offset data.length ]
      ∧ (∀ mem : Nat → Nat,
          runCopy data 0 buffer_offset data.length mem =
            directWrite data buffer_offset mem) := by
  simp only [queue_write_buffer, hdst, husage, if_true]
  exact ⟨_, _, _, _, _, rfl, rfl, rfl, rfl, fun mem => runCopy_from_zero data buffer_offset mem⟩

/-- Witness for C7 at a concrete input. -/
theorem queue_write_buffer_roundtrip_witness :
    exceptOk (queue_write_buffer ⟨5, 50, ⟨none, []⟩, .empty, ⟨[], []⟩, ⟨[], []⟩, []⟩
      [(0, ⟨10, 8, .idle, ⟨0, true⟩⟩)] [7, 9] 0 3) = true := by
  obtain ⟨dev2, buffers2, comb, prev, bs, hok, -⟩ :=
    queue_write_buffer_roundtrip ⟨5, 50, ⟨none, []⟩, .empty, ⟨[], []⟩, ⟨[], []⟩, []⟩
      [(0, ⟨10, 8, .idle, ⟨0, true⟩⟩)] [7, 9] 0 3 ⟨10, 8, .idle, ⟨0, true⟩⟩
      (by decide) (by decide)
  simp [hok, exceptOk]

/-- C9: a successful `queue_write_buffer` leaves exactly one open pending
command buffer and appends exactly one staging pair: if a pending command
buffer was already open it is reused (same handle, commands appended), and if
none was open a fresh one is begun. -/
theorem queue_write_buffer_single_open_command_buffer (dev : Device)
    (buffers : List (Nat × Buffer)) (data : List Nat)
    (buffer_id buffer_offset : Nat) (dst : Buffer)
    (hdst : lookupAssoc buffers buffer_id = some dst)
    (husage : dst.usage &&& BufferUsage.COPY_DST = BufferUsage.COPY_DST) :
    ∃ dev2 buffers2,
      queue_write_buffer dev buffers data buffer_id buffer_offset =
        .ok (dev2, buffers2)
      ∧ dev2.pending_writes.command_buffer.isSome = true
      ∧ dev2.pending_writes.temp_buffers.length =
          dev.pending_writes.temp_buffers.length + 1
      ∧ (∀ c, dev.pending_writes.command_buffer = some c →
          ∃ tail, dev2.pending_writes.command_buffer =
              some { c with cmds := c.cmds ++ tail } ∧ tail.length = 2)
      ∧ (dev.pending_writes.command_buffer = none →
          ∃ c2, dev2.pending_writes.command_buffer = some c2
            ∧ c2.handle = dev.next_handle + 2 ∧ c2.is_finished = false) := by
  simp only [queue_write_buffer, hdst, husage, if_true]
  refine ⟨_, _, rfl, ?_, ?_, ?_, ?_⟩
  · cases dev.pending_writes.command_buffer <;> simp
  · simp
  · intro c hc
    rw [hc]
    exact ⟨_, rfl, rfl⟩
  · intro hc
    rw [hc]
    exact ⟨_, rfl, rfl, rfl⟩

/-- Witness for C9 at a concrete input (no command buffer open yet). -/
theorem queue_write_buffer_single_open_command_buffer_witness :
    exceptOk (queue_write_buffer ⟨5, 50, ⟨none, []⟩, .empty, ⟨[], []⟩, ⟨[], []⟩, []⟩
      [(0, ⟨10, 8, .idle, ⟨0, true⟩⟩)] [7] 0 0) = true := by
  obtain ⟨dev2, buffers2, hok, -⟩ :=
    queue_write_buffer_single_open_command_buffer
      ⟨5, 50, ⟨none, []⟩, .empty, ⟨[], []⟩, ⟨[], []⟩, []⟩
      [(0, ⟨10, 8, .idle, ⟨0, true⟩⟩)] [7] 0 0 ⟨10, 8, .idle, ⟨0, true⟩⟩
      (by decide) (by decide)
  simp [hok, exceptOk]

theorem finishLast_map_handle (l : List RawCmdBuf) :
    (finishLast l).map (fun r => r.handle) = l.map (fun r => r.handle) := by
  induction l with
  | nil => rfl
  | cons c rest ih =>
    cases rest with
    | nil => rfl
    | cons c2 rest2 => simpa [finishLast] using ih

theorem processUsedBuffers_waiting_error (si id : Nat) (b : Buffer)
    (hw : b.map_state = .waiting) :
    ∀ (ids : List Nat) (buffers : List (Nat × Buffer)) (susp : List Nat)
      (tr : List Event), id ∈ ids → lookupAssoc buffers id = some b →
      ∃ e, processUsedBuffers si ids buffers susp tr = .error e := by
  intro ids
  induction ids with
  | nil => intro buffers susp tr hmem; cases hmem
  | cons x rest ih =>
    intro buffers susp tr hmem hb
    by_cases hxid : x = id
    · subst hxid
      exact ⟨.bufferPendingMapping x, by simp [processUsedBuffers, hb, hw]⟩
    · have hmem2 : id ∈ rest := by
        rcases List.mem_cons.mp hmem with h1 | h1
        · exact absurd h1.symm hxid
        · exact h1
      cases hlx : lookupAssoc buffers x with
      | none => exact ⟨.unknownBuffer x, by simp [processUsedBuffers, hlx]⟩
      | some bx =>
        by_cases hwx : bx.map_state = .waiting
        · exact ⟨.bufferPendingMapping x, by simp [processUsedBuffers, hlx, hwx]⟩
        · have hb2 : ∀ v, lookupAssoc (updateAssoc buffers x v) id = some b := by
            intro v
            rw [lookupAssoc_updateAssoc_ne buffers x id v hxid]
            exact hb
          by_cases hlg : (bx.life_guard.use_at si).2 = true
          · obtain ⟨e, he⟩ := ih (updateAssoc buffers x
              { bx with life_guard := (bx.life_guard.use_at si).1 }) susp tr hmem2 (hb2 _)
            exact ⟨e, by simp only [processUsedBuffers, hlx, if_neg hwx, if_pos hlg]; exact he⟩
          · by_cases hax : bx.map_state = .active
            · obtain ⟨e, he⟩ := ih (updateAssoc buffers x
                { bx with life_guard := (bx.life_guard.use_at si).1, map_state := .idle })
                (susp ++ [x]) (tr ++ [Event.warnDroppedMapping x]) hmem2 (hb2 _)
              exact ⟨e, by
                simp only [processUsedBuffers, hlx, if_neg hwx, if_neg hlg, if_pos hax]
                exact he⟩
            · obtain ⟨e, he⟩ := ih (updateAssoc buffers x
                { bx with life_guard := (bx.life_guard.use_at si).1 })
                (susp ++ [x]) tr hmem2 (hb2 _)
              exact ⟨e, by
                simp only [processUsedBuffers, hlx, if_neg hwx, if_neg hlg, if_neg hax]
                exact he⟩

theorem processUsedBuffers_ok_extends (si : Nat) :
    ∀ (ids : List Nat) (buffers : List (Nat × Buffer)) (susp : List Nat)
      (tr : List Event) (out : List (Nat × Buffer) × List Nat × List Event),
      processUsedBuffers si ids buffers susp tr = .ok out →
      (∃ s2, out.2.1 = susp ++ s2)
      ∧ (∃ t2, out.2.2 = tr ++ t2 ∧ ∀ e ∈ t2, e.isWarn = true)
      ∧ (∀ k, k ∉ ids → lookupAssoc out.1 k = lookupAssoc buffers k) := by
  intro ids
  induction ids with
  | nil =>
    intro buffers susp tr out h
    simp only [processUsedBuffers] at h
    injection h with h2
    subst h2
    exact ⟨⟨[], by simp⟩, ⟨[], by simp, by simp⟩, fun k _ => rfl⟩
  | cons x rest ih =>
    intro buffers susp tr out h
    cases hlx : lookupAssoc buffers x with
    | none => simp [processUsedBuffers, hlx] at h
    | some bx =>
      by_cases hwx : bx.map_state = .waiting
      · simp [processUsedBuffers, hlx, hwx] at h
      · by_cases hlg : (bx.life_guard.use_at si).2 = true
        · simp only [processUsedBuffers, hlx, if_neg hwx, if_pos hlg] at h
          obtain ⟨hs, ht, hk⟩ := ih _ _ _ _ h
          refine ⟨hs, ht, fun k hk2 => ?_⟩
          rw [hk k (fun hmem => hk2 (List.mem_cons_of_mem x hmem)),
            lookupAssoc_updateAssoc_ne buffers x k _
              (fun hx => hk2 (hx ▸ List.mem_cons_self x rest))]
        · by_cases hax : bx.map_state = .active
          · simp only [processUsedBuffers, hlx, if_neg hwx, if_neg hlg, if_pos hax] at h
            obtain ⟨⟨s2, hs⟩, ⟨t2, ht, hwarn⟩, hk⟩ := ih _ _ _ _ h
            refine ⟨⟨[x] ++ s2, by simp [hs]⟩,
              ⟨[Event.warnDroppedMapping x] ++ t2, by simp [ht], ?_⟩, fun k hk2 => ?_⟩
            · intro e he
              rcases List.mem_append.mp he with he | he
              · simp at he
                subst he
                rfl
              · exact hwarn e he
            · rw [hk k (fun hmem => hk2 (List.mem_cons_of_mem x hmem)),
                lookupAssoc_updateAssoc_ne buffers x k _
                  (fun hx => hk2 (hx ▸ List.mem_cons_self x rest))]
          · simp only [processUsedBuffers, hlx, if_neg hwx, if_neg hlg, if_neg hax] at h
            obtain ⟨⟨s2, hs⟩, ht, hk⟩ := ih _ _ _ _ h
            refine ⟨⟨[x] ++ s2, by simp [hs]⟩, ht, fun k hk2 => ?_⟩
            rw [hk k (fun hmem => hk2 (List.mem_cons_of_mem x hmem)),
              lookupAssoc_updateAssoc_ne buffers x k _
                (fun hx => hk2 (hx ▸ List.mem_cons_self x rest))]

theorem processUsedBuffers_preserves_idle (si id : Nat) :
    ∀ (ids : List Nat) (buffers : List (Nat × Buffer)) (susp : List Nat)
      (tr : List Event) (out : List (Nat × Buffer) × List Nat × List Event),
      processUsedBuffers si ids buffers susp tr = .ok out →
      (lookupAssoc buffers id).map (fun b => b.map_state) = some .idle →
      (lookupAssoc out.1 id).map (fun b => b.map_state) = some .idle := by
  intro ids
  induction ids with
  | nil =>
    intro buffers susp tr out h hidle
    simp only [processUsedBuffers] at h
    injection h with h2
    subst h2
    exact hidle
  | cons x rest ih =>
    intro buffers susp tr out h hidle
    cases hlx : lookupAssoc buffers x with
    | none => simp [processUsedBuffers, hlx] at h
    | some bx =>
      by_cases hwx : bx.map_state = .waiting
      · simp [processUsedBuffers, hlx, hwx] at h
      · by_cases hxid : x = id
        · subst hxid
          rw [hlx] at hidle
          have hidle2 : bx.map_state = .idle := by simpa using hidle
          have hax : ¬ bx.map_state = .active := by rw [hidle2]; simp
          by_cases hlg : (bx.life_guard.use_at si).2 = true
          · simp only [processUsedBuffers, hlx, if_neg hwx, if_pos hlg] at h
            refine ih _ _ _ _ h ?_
            rw [lookupAssoc_updateAssoc_self buffers x bx _ hlx]
            simp [hidle2]
          · simp only [processUsedBuffers, hlx, if_neg hwx, if_neg hlg, if_neg hax] at h
            refine ih _ _ _ _ h ?_
            rw [lookupAssoc_updateAssoc_self buffers x bx _ hlx]
            simp [hidle2]
        · have hpres : ∀ v, (lookupAssoc (updateAssoc buffers x v) id).map
              (fun b => b.map_state) = some .idle := by
            intro v
            rw [lookupAssoc_updateAssoc_ne buffers x id v hxid]
            exact hidle
          by_cases hlg : (bx.life_guard.use_at si).2 = true
          · simp only [processUsedBuffers, hlx, if_neg hwx, if_pos hlg] at h
            exact ih _ _ _ _ h (hpres _)
          · by_cases hax : bx.map_state = .active
            · simp only [processUsedBuffers, hlx, if_neg hwx, if_neg hlg, if_pos hax] at h
              exact ih _ _ _ _ h (hpres _)
            · simp only [processUsedBuffers, hlx, if_neg hwx, if_neg hlg, if_neg hax] at h
              exact ih _ _ _ _ h (hpres _)

theorem processUsedBuffers_active_dropped (si id : Nat) (b : Buffer)
    (hact : b.map_state = .active) (hrefs : b.life_guard.has_refs = false) :
    ∀ (ids : List Nat) (buffers : List (Nat × Buffer)) (susp : List Nat)
      (tr : List Event) (out : List (Nat × Buffer) × List Nat × List Event),
      processUsedBuffers si ids buffers susp tr = .ok out →
      id ∈ ids → lookupAssoc buffers id = some b →
      Event.warnDroppedMapping id ∈ out.2.2 ∧ id ∈ out.2.1
        ∧ (lookupAssoc out.1 id).map (fun bb => bb.map_state) = some .idle := by
  intro ids
  induction ids with
  | nil => intro buffers susp tr out h hmem; cases hmem
  | cons x rest ih =>
    intro buffers susp tr out h hmem hb
    by_cases hxid : x = id
    · subst hxid
      have hnw : ¬ b.map_state = .waiting := by rw [hact]; simp
      have hlg : ¬ (b.life_guard.use_at si).2 = true := by
        simp [LifeGuard.use_at, hrefs]
      simp only [processUsedBuffers, hb, if_neg hnw, if_neg hlg, if_pos hact] at h
      obtain ⟨⟨s2, hs⟩, ⟨t2, ht, -⟩, -⟩ := processUsedBuffers_ok_extends si _ _ _ _ _ h
      refine ⟨?_, ?_, ?_⟩
      · rw [ht]
        simp
      · rw [hs]
        simp
      · refine processUsedBuffers_preserves_idle si x _ _ _ _ _ h ?_
        rw [lookupAssoc_updateAssoc_self buffers x b _ hb]
        simp
    · have hmem2 : id ∈ rest := by
        rcases List.mem_cons.mp hmem with h1 | h1
        · exact absurd h1.symm hxid
        · exact h1
      have hb2 : ∀ v, lookupAssoc (updateAssoc buffers x v) id = some b := by
        intro v
        rw [lookupAssoc_updateAssoc_ne buffers x id v hxid]
        exact hb
      cases hlx : lookupAssoc buffers x with
      | none => simp [processUsedBuffers, hlx] at h
      | some bx =>
        by_cases hwx : bx.map_state = .waiting
        · simp [processUsedBuffers, hlx, hwx] at h
        · by_cases hlg : (bx.life_guard.use_at si).2 = true
          · simp only [processUsedBuffers, hlx, if_neg hwx, if_pos hlg] at h
            exact ih _ _ _ _ h hmem2 (hb2 _)
          · by_cases hax : bx.map_state = .active
            · simp only [processUsedBuffers, hlx, if_neg hwx, if_neg hlg, if_pos hax] at h
              exact ih _ _ _ _ h hmem2 (hb2 _)
            · simp only [processUsedBuffers, hlx, if_neg hwx, if_neg hlg, if_neg hax] at h
              exact ih _ _ _ _ h hmem2 (hb2 _)

theorem stepSwapChain_ok (st : LoopState) (x : Nat) (comb : CommandBuffer)
    (st1 : LoopState) (comb1 : CommandBuffer)
    (h : stepSwapChain st x comb = .ok (st1, comb1)) :
    comb1.raw = comb.raw ∧ comb1.trackers = comb.trackers
    ∧ st1.buffers = st.buffers ∧ st1.temp_suspected = st.temp_suspected
    ∧ st1.trace = st.trace ∧ st1.command_buffers = st.command_buffers
    ∧ st1.next_handle = st.next_handle
    ∧ ((comb.used_swap_chain = none ∧ st1.signal_sems = st.signal_sems
          ∧ st1.swap_chains = st.swap_chains)
       ∨ (∃ s0 fbo sc v, comb.used_swap_chain = some (s0, fbo)
            ∧ lookupAssoc st.swap_chains s0 = some sc
            ∧ sc.acquired_view_id = some v
            ∧ st1.signal_sems = st.signal_sems ++
                (if sc.acquired_framebuffers.isEmpty then [s0] else [])
            ∧ st1.swap_chains = updateAssoc st.swap_chains s0
                { sc with acquired_framebuffers := sc.acquired_framebuffers ++ [fbo] })) := by
  cases hu : comb.used_swap_chain with
  | none =>
    simp only [stepSwapChain, hu] at h
    rw [Except.ok.injEq, Prod.mk.injEq] at h
    obtain ⟨h1, h2⟩ := h
    subst h1
    subst h2
    refine ⟨rfl, rfl, rfl, rfl, rfl, rfl, rfl, Or.inl ⟨?_, rfl, rfl⟩⟩
    first | rfl | exact hu
  | some scf =>
    obtain ⟨s0, fbo⟩ := scf
    cases hsc : lookupAssoc st.swap_chains s0 with
    | none => simp [stepSwapChain, hu, hsc] at h
    | some sc =>
      cases hv : sc.acquired_view_id with
      | none => simp [stepSwapChain, hu, hsc, hv] at h
      | some v =>
        simp only [stepSwapChain, hu, hsc, hv] at h
        by_cases hfb : sc.acquired_framebuffers.isEmpty = true
        · rw [if_pos hfb] at h
          rw [Except.ok.injEq, Prod.mk.injEq] at h
          obtain ⟨h1, h2⟩ := h
          subst h1
          subst h2
          refine ⟨rfl, rfl, rfl, rfl, rfl, rfl, rfl,
            Or.inr ⟨s0, fbo, sc, v, ?_, ?_, ?_, ?_, ?_⟩⟩
          · first | rfl | exact hu
          · first | rfl | exact hsc
          · first | rfl | exact hv
          · simp [hfb]
          · first | rfl | rw [hv]
        · rw [if_neg hfb] at h
          rw [Except.ok.injEq, Prod.mk.injEq] at h
          obtain ⟨h1, h2⟩ := h
          subst h1
          subst h2
          refine ⟨rfl, rfl, rfl, rfl, rfl, rfl, rfl,
            Or.inr ⟨s0, fbo, sc, v, ?_, ?_, ?_, ?_, ?_⟩⟩
          · first | rfl | exact hu
          · first | rfl | exact hsc
          · first | rfl | exact hv
          · simp [hfb]
          · first | rfl | rw [hv]

theorem processCommandBuffer_ok (si : Nat) (st : LoopState) (x : Nat)
    (st2 : LoopState) (h : processCommandBuffer si st x = .ok st2) :
    ∃ comb0 st1 comb1 pu,
      lookupAssoc st.command_buffers x = some comb0
      ∧ stepSwapChain st x comb0 = .ok (st1, comb1)
      ∧ processUsedBuffers si comb1.trackers.buffers st1.buffers
          st1.temp_suspected.buffers st1.trace = .ok pu
      ∧ st2.buffers = pu.1
      ∧ st2.temp_suspected.buffers = pu.2.1
      ∧ st2.trace = pu.2.2
      ∧ st2.signal_sems = st1.signal_sems
      ∧ st2.swap_chains = st1.swap_chains
      ∧ st2.next_handle = st1.next_handle + 1
      ∧ (∃ comb2, st2.command_buffers = updateAssoc st1.command_buffers x comb2
          ∧ comb2.raw.map (fun r => r.handle) =
              st1.next_handle :: comb0.raw.map (fun r => r.handle)) := by
  cases hl : lookupAssoc st.command_buffers x with
  | none => simp [processCommandBuffer, hl] at h
  | some comb0 =>
    cases hsw : stepSwapChain st x comb0 with
    | error e => simp [processCommandBuffer, hl, hsw] at h
    | ok p =>
      obtain ⟨st1, comb1⟩ := p
      simp only [processCommandBuffer, hl, hsw, TrackerSet.optimize] at h
      cases hpu : processUsedBuffers si comb1.trackers.buffers st1.buffers
          st1.temp_suspected.buffers st1.trace with
      | error e => rw [hpu] at h; simp at h
      | ok pu =>
        obtain ⟨buffers2, susp_b, trace2⟩ := pu
        rw [hpu] at h
        cases hpo1 : processOtherResources si comb1.trackers.textures
            st1.textures st1.temp_suspected.textures with
        | error e => rw [hpo1] at h; simp at h
        | ok po1 =>
          obtain ⟨textures2, susp_t⟩ := po1
          rw [hpo1] at h
          cases hpo2 : processOtherResources si comb1.trackers.views
              st1.texture_views st1.temp_suspected.texture_views with
          | error e => rw [hpo2] at h; simp at h
          | ok po2 =>
            obtain ⟨views2, susp_v⟩ := po2
            rw [hpo2] at h
            cases hpo3 : processOtherResources si comb1.trackers.bind_groups
                st1.bind_groups st1.temp_suspected.bind_groups with
            | error e => rw [hpo3] at h; simp at h
            | ok po3 =>
              obtain ⟨bgs2, susp_bg⟩ := po3
              rw [hpo3] at h
              cases hpo4 : processOtherResources si comb1.trackers.samplers
                  st1.samplers st1.temp_suspected.samplers with
              | error e => rw [hpo4] at h; simp at h
              | ok po4 =>
                obtain ⟨samplers2, susp_s⟩ := po4
                rw [hpo4] at h
                cases hpo5 : processOtherResources si comb1.trackers.compute_pipes
                    st1.compute_pipelines st1.temp_suspected.compute_pipelines with
                | error e => rw [hpo5] at h; simp at h
                | ok po5 =>
                  obtain ⟨cps2, susp_cp⟩ := po5
                  rw [hpo5] at h
                  cases hpo6 : processOtherResources si comb1.trackers.render_pipes
                      st1.render_pipelines st1.temp_suspected.render_pipelines with
                  | error e => rw [hpo6] at h; simp at h
                  | ok po6 =>
                    obtain ⟨rps2, susp_rp⟩ := po6
                    rw [hpo6] at h
                    cases hraw : comb1.raw with
                    | nil => rw [hraw] at h; simp at h
                    | cons r0 rrest =>
                      rw [hraw] at h
                      simp only [Except.ok.injEq] at h
                      subst h
                      refine ⟨comb0, st1, comb1, (buffers2, susp_b, trace2),
                        ?_, ?_, ?_, rfl, rfl, rfl, rfl, rfl, rfl, ?_⟩
                      · first | rfl | exact hl
                      · first | rfl | exact hsw
                      · first | rfl | exact hpu
                      · obtain ⟨hraw01, -⟩ := stepSwapChain_ok st x comb0 st1 comb1 hsw
                        refine ⟨_, rfl, ?_⟩
                        simp only [List.map_cons]
                        rw [← hraw, finishLast_map_handle, hraw01]

theorem semaphoreOf_update (scs : List (Nat × SwapChain)) (s0 : Nat)
    (sc sc2 : SwapChain) (hsc : lookupAssoc scs s0 = some sc)
    (hse : sc2.semaphore = sc.semaphore) (s : Nat) :
    semaphoreOf (updateAssoc scs s0 sc2) s = semaphoreOf scs s := by
  by_cases hs : s0 = s
  · subst hs
    unfold semaphoreOf
    rw [lookupAssoc_updateAssoc_self scs s0 sc sc2 hsc, hsc]
    simp [hse]
  · unfold semaphoreOf
    rw [lookupAssoc_updateAssoc_ne scs s0 s sc2 hs]

theorem processCommandBuffer_facts (si : Nat) (st : LoopState) (x : Nat)
    (st2 : LoopState) (h : processCommandBuffer si st x = .ok st2) :
    (∃ ext, st2.trace = st.trace ++ ext ∧ ∀ e ∈ ext, e.isWarn = true)
    ∧ (∃ ext, st2.temp_suspected.buffers = st.temp_suspected.buffers ++ ext)
    ∧ (∀ id, (lookupAssoc st.buffers id).map (fun b => b.map_state) = some .idle →
        (lookupAssoc st2.buffers id).map (fun b => b.map_state) = some .idle)
    ∧ (∀ k, ¬ k = x → lookupAssoc st2.command_buffers k = lookupAssoc st.command_buffers k)
    ∧ (∀ s, semaphoreOf st2.swap_chains s = semaphoreOf st.swap_chains s)
    ∧ (∃ t comb0, lookupAssoc st.command_buffers x = some comb0
        ∧ rawHandlesOf st2.command_buffers x = t :: comb0.raw.map (fun r => r.handle)) := by
  obtain ⟨comb0, st1, comb1, pu, hl, hsw, hpu, hbuf, hsusp, htrace, hsig, hsw2, hnh,
    comb2, hcbs, hraw⟩ := processCommandBuffer_ok si st x st2 h
  obtain ⟨hraw1, htrk1, hbuf1, hts1, htr1, hcb1, hnh1, hswd⟩ :=
    stepSwapChain_ok st x comb0 st1 comb1 hsw
  obtain ⟨⟨s2, hs⟩, ⟨t2, ht, hwarn⟩, -⟩ := processUsedBuffers_ok_extends si _ _ _ _ _ hpu
  refine ⟨⟨t2, ?_, hwarn⟩, ⟨s2, ?_⟩, ?_, ?_, ?_, ?_⟩
  · rw [htrace, ht, htr1]
  · rw [hsusp, hs, hts1]
  · intro id hid
    rw [hbuf]
    refine processUsedBuffers_preserves_idle si id _ _ _ _ _ hpu ?_
    rw [hbuf1]
    exact hid
  · intro k hk
    rw [hcbs, lookupAssoc_updateAssoc_ne st1.command_buffers x k comb2
      (fun hx => hk hx.symm), hcb1]
  · intro s
    rw [hsw2]
    rcases hswd with ⟨-, -, hsw3⟩ | ⟨s0, fbo, sc, v, -, hsc, -, -, hsw3⟩
    · rw [hsw3]
    · rw [hsw3]
      exact semaphoreOf_update st.swap_chains s0 sc
        { sc with acquired_framebuffers := sc.acquired_framebuffers ++ [fbo] } hsc rfl s
  · refine ⟨st1.next_handle, comb0, hl, ?_⟩
    have hl1 : lookupAssoc st1.command_buffers x = some comb0 := by rw [hcb1]; exact hl
    unfold rawHandlesOf
    rw [hcbs, lookupAssoc_updateAssoc_self st1.command_buffers x comb0 comb2 hl1]
    simp only [Option.map, Option.getD]
    exact hraw

theorem processAll_facts (si : Nat) :
    ∀ (ids : List Nat) (st st2 : LoopState),
      processAll si st ids = .ok st2 →
      (∃ ext, st2.trace = st.trace ++ ext ∧ ∀ e ∈ ext, e.isWarn = true)
      ∧ (∃ ext, st2.temp_suspected.buffers = st.temp_suspected.buffers ++ ext)
      ∧ (∀ id, (lookupAssoc st.buffers id).map (fun b => b.map_state) = some .idle →
          (lookupAssoc st2.buffers id).map (fun b => b.map_state) = some .idle)
      ∧ (∀ k, k ∉ ids → lookupAssoc st2.command_buffers k = lookupAssoc st.command_buffers k)
      ∧ (∀ s, semaphoreOf st2.swap_chains s = semaphoreOf st.swap_chains s) := by
  intro ids
  induction ids with
  | nil =>
    intro st st2 h
    simp only [processAll] at h
    injection h with h2
    subst h2
    exact ⟨⟨[], by simp, by simp⟩, ⟨[], by simp⟩, fun id hid => hid,
      fun k _ => rfl, fun s => rfl⟩
  | cons x rest ih =>
    intro st st2 h
    simp only [processAll] at h
    cases hpc : processCommandBuffer si st x with
    | error e => rw [hpc] at h; simp at h
    | ok st1 =>
      rw [hpc] at h
      obtain ⟨⟨e1, he1, hw1⟩, ⟨e2, he2⟩, hidle1, hcb1, hsem1, -⟩ :=
        processCommandBuffer_facts si st x st1 hpc
      obtain ⟨⟨f1, hf1, hwf1⟩, ⟨f2, hf2⟩, hidle2, hcb2, hsem2⟩ := ih st1 st2 h
      refine ⟨⟨e1 ++ f1, by rw [hf1, he1, List.append_assoc], ?_⟩,
        ⟨e2 ++ f2, by rw [hf2, he2, List.append_assoc]⟩,
        fun id hid => hidle2 id (hidle1 id hid), fun k hk => ?_,
        fun s => (hsem2 s).trans (hsem1 s)⟩
      · intro e he
        rcases List.mem_append.mp he with he2 | he2
        · exact hw1 e he2
        · exact hwf1 e he2
      · rw [hcb2 k (fun hm => hk (List.mem_cons_of_mem x hm)),
          hcb1 k (fun hx => hk (hx ▸ List.mem_cons_self x rest))]

theorem processAll_chunks (si : Nat) :
    ∀ (ids : List Nat) (st st2 : LoopState),
      processAll si st ids = .ok st2 → ids.Nodup →
      ∀ id ∈ ids, ∃ t comb0, lookupAssoc st.command_buffers id = some comb0
        ∧ rawHandlesOf st2.command_buffers id = t :: comb0.raw.map (fun r => r.handle) := by
  intro ids
  induction ids with
  | nil => intro st st2 h hnd id hid; cases hid
  | cons x rest ih =>
    intro st st2 h hnd id hid
    simp only [processAll] at h
    cases hpc : processCommandBuffer si st x with
    | error e => rw [hpc] at h; simp at h
    | ok st1 =>
      rw [hpc] at h
      rcases List.mem_cons.mp hid with hx | hx
      · subst hx
        obtain ⟨-, -, -, -, -, t, comb0, hl, hch⟩ :=
          processCommandBuffer_facts si st id st1 hpc
        have hnotin : id ∉ rest := (List.nodup_cons.mp hnd).1
        obtain ⟨-, -, -, hcb2, -⟩ := processAll_facts si rest st1 st2 h
        refine ⟨t, comb0, hl, ?_⟩
        unfold rawHandlesOf
        rw [hcb2 id hnotin]
        exact hch
      · obtain ⟨-, -, -, hcb1, -, -⟩ := processCommandBuffer_facts si st x st1 hpc
        have hne : ¬ id = x := by
          intro heq
          exact (List.nodup_cons.mp hnd).1 (heq ▸ hx)
        obtain ⟨t, comb0, hl, hch⟩ := ih st1 st2 h (List.nodup_cons.mp hnd).2 id hx
        exact ⟨t, comb0, by rw [← hcb1 id hne]; exact hl, hch⟩

theorem usedSwapChains_congr (cbs cbs2 : List (Nat × CommandBuffer))
    (ids : List Nat)
    (h : ∀ id ∈ ids, lookupAssoc cbs2 id = lookupAssoc cbs id) :
    usedSwapChains cbs2 ids = usedSwapChains cbs ids :=
  List.filterMap_congr (fun id hid => by rw [h id hid])

theorem processAll_signal_sems (si : Nat) :
    ∀ (ids : List Nat) (st st2 : LoopState),
      processAll si st ids = .ok st2 → ids.Nodup →
      (usedSwapChains st.command_buffers ids).Nodup →
      ∀ s ∈ st2.signal_sems, s ∈ st.signal_sems
        ∨ ∃ id ∈ ids, ∃ c fbo sc, lookupAssoc st.command_buffers id = some c
            ∧ c.used_swap_chain = some (s, fbo)
            ∧ lookupAssoc st.swap_chains s = some sc
            ∧ sc.acquired_framebuffers = [] := by
  intro ids
  induction ids with
  | nil =>
    intro st st2 h hnd hnu s hs
    simp only [processAll] at h
    injection h with h2
    subst h2
    exact Or.inl hs
  | cons x rest ih =>
    intro st st2 h hnd hnu s hs
    simp only [processAll] at h
    cases hpc : processCommandBuffer si st x with
    | error e => rw [hpc] at h; simp at h
    | ok st1 =>
      rw [hpc] at h
      have hxrest : x ∉ rest := (List.nodup_cons.mp hnd).1
      obtain ⟨-, -, -, hcb1, -, -⟩ := processCommandBuffer_facts si st x st1 hpc
      have hcbpres : ∀ id ∈ rest, lookupAssoc st1.command_buffers id =
          lookupAssoc st.command_buffers id := by
        intro id hid
        exact hcb1 id (fun heq => hxrest (heq ▸ hid))
      have husc : usedSwapChains st1.command_buffers rest =
          usedSwapChains st.command_buffers rest :=
        usedSwapChains_congr _ _ rest hcbpres
      obtain ⟨comb0, stA, comb1, pu, hl, hsw, hpu, -, -, -, hsig, hsw2, -, -⟩ :=
        processCommandBuffer_ok si st x st1 hpc
      obtain ⟨-, -, -, -, -, -, -, hswd⟩ := stepSwapChain_ok st x comb0 stA comb1 hsw
      rcases hswd with ⟨hused, hsigA, hswA⟩ | ⟨s0, fbo, sc, v, hused, hsc, hv, hsigA, hswA⟩
      · -- the head command buffer used no swap chain
        have hnu2 : (usedSwapChains st.command_buffers (x :: rest)) =
            usedSwapChains st.command_buffers rest := by
          unfold usedSwapChains
          rw [List.filterMap_cons]
          simp [hl, hused]
        have hres := ih st1 st2 h (List.nodup_cons.mp hnd).2
          (by rw [husc]; exact (hnu2 ▸ hnu)) s hs
        rcases hres with hres | ⟨id, hid, c, fbo2, sc1, hlid, hu2, hsc1, hfb1⟩
        · rw [hsig, hsigA] at hres
          exact Or.inl hres
        · refine Or.inr ⟨id, List.mem_cons_of_mem x hid, c, fbo2, sc1, ?_, hu2, ?_, hfb1⟩
          · rw [← hcbpres id hid]
            exact hlid
          · rw [hsw2, hswA] at hsc1
            exact hsc1
      · -- the head command buffer used swap chain s0
        have hnu2 : usedSwapChains st.command_buffers (x :: rest) =
            s0 :: usedSwapChains st.command_buffers rest := by
          unfold usedSwapChains
          rw [List.filterMap_cons]
          simp [hl, hused]
        rw [hnu2] at hnu
        have hs0rest : s0 ∉ usedSwapChains st.command_buffers rest :=
          (List.nodup_cons.mp hnu).1
        have hres := ih st1 st2 h (List.nodup_cons.mp hnd).2
          (by rw [husc]; exact (List.nodup_cons.mp hnu).2) s hs
        rcases hres with hres | ⟨id, hid, c, fbo2, sc1, hlid, hu2, hsc1, hfb1⟩
        · rw [hsig, hsigA] at hres
          rcases List.mem_append.mp hres with hres | hres
          · exact Or.inl hres
          · by_cases hfb : sc.acquired_framebuffers.isEmpty = true
            · rw [if_pos hfb] at hres
              simp only [List.mem_singleton] at hres
              subst hres
              exact Or.inr ⟨x, List.mem_cons_self x rest, comb0, fbo, sc, hl, hused,
                hsc, List.isEmpty_iff.mp hfb⟩
            · rw [if_neg hfb] at hres
              cases hres
        · have hsrest : s ∈ usedSwapChains st.command_buffers rest := by
            unfold usedSwapChains
            refine List.mem_filterMap.mpr ⟨id, hid, ?_⟩
            rw [← hcbpres id hid, hlid]
            simp [hu2]
          have hss0 : ¬ s0 = s := fun heq => hs0rest (heq ▸ hsrest)
          refine Or.inr ⟨id, List.mem_cons_of_mem x hid, c, fbo2, sc1, ?_, hu2, ?_, hfb1⟩
          · rw [← hcbpres id hid]
            exact hlid
          · rw [hsw2, hswA, lookupAssoc_updateAssoc_ne st.swap_chains s0 s _ hss0] at hsc1
            exact hsc1

theorem maintainLoop_trace_frees (signaled : List Nat) :
    ∀ (records : List SubmissionRecord) (pcbs : List (Nat × Nat)),
      ∀ e ∈ (maintainLoop signaled records pcbs).trace,
        ∃ hdl, e = .freeTempBuffer hdl
          ∧ ∃ r ∈ records, r.fence ∈ signaled
              ∧ hdl ∈ r.temp_buffers.map (fun tb => tb.1.handle) := by
  intro records
  induction records with
  | nil => intro pcbs e he; simp [maintainLoop] at he
  | cons r rest ih =>
    intro pcbs e he
    by_cases hf : r.fence ∈ signaled
    · rw [maintainLoop, if_pos hf] at he
      simp only [List.mem_append] at he
      rcases he with he | he
      · rw [List.mem_map] at he
        obtain ⟨tb, htb, heq⟩ := he
        exact ⟨tb.1.handle, heq.symm, r, List.mem_cons_self r rest, hf,
          List.mem_map.mpr ⟨tb, htb, rfl⟩⟩
      · obtain ⟨hdl, heq, r2, hr2, hf2, hm2⟩ := ih _ e he
        exact ⟨hdl, heq, r2, List.mem_cons_of_mem r hr2, hf2, hm2⟩
    · rw [maintainLoop, if_neg hf] at he
      cases he

theorem initLoopState_command_buffers (hub : Hub) :
    (initLoopState hub).command_buffers = hub.command_buffers := rfl

theorem initLoopState_swap_chains (hub : Hub) :
    (initLoopState hub).swap_chains = hub.swap_chains := rfl

theorem initLoopState_buffers (hub : Hub) :
    (initLoopState hub).buffers = hub.buffers := rfl

theorem initLoopState_trace (hub : Hub) : (initLoopState hub).trace = [] := rfl

theorem initLoopState_temp_suspected (hub : Hub) :
    (initLoopState hub).temp_suspected = SuspectedResources.empty := rfl

theorem initLoopState_signal_sems (hub : Hub) :
    (initLoopState hub).signal_sems = [] := rfl

/-- A sample buffer resource for concrete runs. -/
def exBuffer (ms : BufferMapState) (refs : Bool) : Buffer :=
  { raw := 10, usage := 8, map_state := ms, life_guard := ⟨0, refs⟩ }

/-- A sample tracker set touching buffer 0 only. -/
def exTrackers : TrackerSet := ⟨[0], [], [], [], [], [], [], [], []⟩

/-- A sample tracker set touching nothing. -/
def exTrackersEmpty : TrackerSet := ⟨[], [], [], [], [], [], [], [], []⟩

/-- A sample command buffer (one recorded raw command buffer, handle 20). -/
def exCommandBuffer : CommandBuffer :=
  { raw := [⟨20, [], false⟩], trackers := exTrackers, used_swap_chain := none }

/-- A sample command buffer that used swap chain 2 with framebuffer 5. -/
def exCommandBufferSC : CommandBuffer :=
  { raw := [⟨20, [], false⟩], trackers := exTrackersEmpty,
    used_swap_chain := some (2, 5) }

/-- A sample swap chain whose acquired view has been dropped. -/
def exSwapChain : SwapChain :=
  { acquired_view_id := none, acquired_framebuffers := [], semaphore := 40 }

/-- A sample device: no pending writes, counter at 0, handles from 30. -/
def exDevice : Device :=
  { submission_index := 0, next_handle := 30, pending_writes := ⟨none, []⟩,
    temp_suspected := .empty, trackers := ⟨[], []⟩, life_tracker := ⟨[], []⟩,
    signaled_fences := [] }

/-- A sample hub with one buffer (id 0, parametrized mapping state) and one
command buffer (id 1) that uses it. -/
def exHub (ms : BufferMapState) (refs : Bool) : Hub :=
  { device := exDevice, buffers := [(0, exBuffer ms refs)], textures := [],
    texture_views := [], bind_groups := [], samplers := [],
    compute_pipelines := [], render_pipelines := [],
    command_buffers := [(1, exCommandBuffer)], swap_chains := [] }

/-- A sample hub with no resources and no command buffers. -/
def exHubEmpty : Hub :=
  { device := exDevice, buffers := [], textures := [], texture_views := [],
    bind_groups := [], samplers := [], compute_pipelines := [],
    render_pipelines := [], command_buffers := [], swap_chains := [] }

/-- A sample hub where command buffer 1 used the dropped swap chain 2. -/
def exHubSC : Hub :=
  { device := exDevice, buffers := [], textures := [], texture_views := [],
    bind_groups := [], samplers := [], compute_pipelines := [],
    render_pipelines := [], command_buffers := [(1, exCommandBufferSC)],
    swap_chains := [(2, exSwapChain)] }

theorem queue_submit_next_index (hub : Hub) (ids : List Nat) (hub2 : Hub)
    (tr : List Event) (h : queue_submit hub ids = .ok (hub2, tr)) :
    hub2.device.submission_index = hub.device.submission_index + 1 := by
  simp only [queue_submit] at h
  cases hpa : processAll (hub.device.submission_index + 1) (initLoopState hub) ids with
  | error e => rw [hpa] at h; simp at h
  | ok st =>
    rw [hpa] at h
    rw [Except.ok.injEq, Prod.mk.injEq] at h
    obtain ⟨h1, h2⟩ := h
    rw [← h1]

/-- The submission indices allocated by a sequence of `queue_submit` calls
(stopping at the first fatal failure), each read back from the device's
counter after the call. -/
def submitIndices : Hub → List (List Nat) → List Nat
  | _, [] => []
  | hub, ids :: rest =>
    match queue_submit hub ids with
    | .ok p => p.1.device.submission_index :: submitIndices p.1 rest
    | .error _ => []

theorem submitIndices_lt :
    ∀ (calls : List (List Nat)) (hub : Hub) (x : Nat),
      x ∈ submitIndices hub calls → hub.device.submission_index < x := by
  intro calls
  induction calls with
  | nil => intro hub x hx; cases hx
  | cons ids rest ih =>
    intro hub x hx
    cases hq : queue_submit hub ids with
    | error e => simp [submitIndices, hq] at hx
    | ok p =>
      simp only [submitIndices, hq] at hx
      have hidx : p.1.device.submission_index = hub.device.submission_index + 1 :=
        queue_submit_next_index hub ids p.1 p.2 (by rw [hq])
      rcases List.mem_cons.mp hx with hx1 | hx2
      · rw [hx1, hidx]
        exact Nat.lt_succ_self _
      · exact lt_trans (by rw [hidx]; exact Nat.lt_succ_self _) (ih p.1 x hx2)

/-- C4: across any sequence of `queue_submit` calls on one device, the
submission indices allocated (read back after each call) are pairwise
strictly increasing — every allocated index is strictly greater than all
previously allocated ones, and no index is ever reused. -/
theorem queue_submit_indices_strictly_increasing (hub : Hub)
    (calls : List (List Nat)) :
    List.Pairwise (fun a b => a < b) (submitIndices hub calls) := by
  induction calls generalizing hub with
  | nil => simp [submitIndices]
  | cons ids rest ih =>
    cases hq : queue_submit hub ids with
    | error e => simp [submitIndices, hq]
    | ok p =>
      simp only [submitIndices, hq]
      exact List.pairwise_cons.mpr ⟨fun x hx => submitIndices_lt rest p.1 x hx, ih p.1⟩

/-- C10: if a submitted command buffer used a swap chain whose acquired view
has already been dropped, `queue_submit` fails with a fatal assertion
identifying the swap chain and the command buffer; the failure happens inside
the per-command-buffer loop, before the hardware submission is built. -/
theorem queue_submit_dropped_swap_chain (hub : Hub) (cmb_id : Nat)
    (rest : List Nat) (comb : CommandBuffer) (sc_id fbo : Nat) (sc : SwapChain)
    (hcomb : lookupAssoc hub.command_buffers cmb_id = some comb)
    (hused : comb.used_swap_chain = some (sc_id, fbo))
    (hsc : lookupAssoc hub.swap_chains sc_id = some sc)
    (hview : sc.acquired_view_id = none) :
    queue_submit hub (cmb_id :: rest) =
      .error (.swapChainOutputDropped sc_id cmb_id) := by
  have hstep : stepSwapChain (initLoopState hub) cmb_id comb =
      .error (.swapChainOutputDropped sc_id cmb_id) := by
    simp only [stepSwapChain, hused, initLoopState_swap_chains, hsc, hview]
  have hpcb : processCommandBuffer (hub.device.submission_index + 1)
      (initLoopState hub) cmb_id = .error (.swapChainOutputDropped sc_id cmb_id) := by
    simp only [processCommandBuffer, initLoopState_command_buffers, hcomb, hstep]
  simp only [queue_submit, processAll, hpcb]

/-- Witness for C10 at a concrete input. -/
theorem queue_submit_dropped_swap_chain_witness :
    queue_submit exHubSC [1] = .error (.swapChainOutputDropped 2 1) :=
  queue_submit_dropped_swap_chain exHubSC 1 [] exCommandBufferSC 2 5 exSwapChain
    rfl rfl rfl rfl

/-- C1 counterexample: a submitted command buffer references buffer 0, which
has an *active* host mapping (and outstanding references). The claim says this
must fail fatally before any hardware submission; the code instead succeeds
and performs the hardware submission. (Conversely the code's fatal case is the
*pending* `Waiting` state — see the amended theorem.) -/
theorem active_mapping_submit_counterexample :
    (lookupAssoc (exHub .active true).buffers 0).map (fun b => b.map_state) =
        some .active
    ∧ exceptOk (queue_submit (exHub .active true) [1]) = true
    ∧ Event.hardwareSubmit [30, 20] 31 [] ∈
        submitTrace (queue_submit (exHub .active true) [1]) := by
  decide

/-- C1 (amended): in `queue_submit` the fatal mapping state is the *pending*
(`Waiting`) one: a used buffer with a pending mapping request makes the call
fail before anything observable happens. A used buffer with an *active*
mapping is fatal in no case; when its references were dropped (no outstanding
references) it is silently unmapped to `idle`, a `warnDroppedMapping`
diagnostic is emitted, the buffer is pushed onto the suspected list, and the
submission continues. -/
theorem queue_submit_mapping_policy :
    (∀ (hub : Hub) (cmb_id : Nat) (rest : List Nat) (comb : CommandBuffer)
        (id : Nat) (b : Buffer),
      lookupAssoc hub.command_buffers cmb_id = some comb →
      id ∈ comb.trackers.buffers →
      lookupAssoc hub.buffers id = some b →
      b.map_state = .waiting →
      ∃ e, queue_submit hub (cmb_id :: rest) = .error e)
    ∧ (∀ (hub : Hub) (cmb_id : Nat) (rest : List Nat) (comb : CommandBuffer)
        (id : Nat) (b : Buffer) (hub2 : Hub) (tr : List Event),
      queue_submit hub (cmb_id :: rest) = .ok (hub2, tr) →
      lookupAssoc hub.command_buffers cmb_id = some comb →
      id ∈ comb.trackers.buffers →
      lookupAssoc hub.buffers id = some b →
      b.map_state = .active →
      b.life_guard.has_refs = false →
      Event.warnDroppedMapping id ∈ tr
        ∧ id ∈ hub2.device.temp_suspected.buffers
        ∧ (lookupAssoc hub2.buffers id).map (fun bb => bb.map_state) = some .idle) := by
  constructor
  · intro hub cmb_id rest comb id b hcomb hmem hb hw
    cases hpc : processCommandBuffer (hub.device.submission_index + 1)
        (initLoopState hub) cmb_id with
    | error e => exact ⟨e, by simp only [queue_submit, processAll, hpc]⟩
    | ok st1 =>
      exfalso
      obtain ⟨comb0, stA, comb1, pu, hl, hsw, hpu, -⟩ :=
        processCommandBuffer_ok _ _ _ _ hpc
      rw [initLoopState_command_buffers, hcomb] at hl
      injection hl with hl
      subst hl
      obtain ⟨-, htrk1, hbufA, -, -, -, -, -⟩ := stepSwapChain_ok _ _ _ _ _ hsw
      obtain ⟨e, he⟩ := processUsedBuffers_waiting_error
        (hub.device.submission_index + 1) id b hw comb1.trackers.buffers
        stA.buffers stA.temp_suspected.buffers stA.trace
        (by rw [htrk1]; exact hmem)
        (by rw [hbufA, initLoopState_buffers]; exact hb)
      rw [he] at hpu
      simp at hpu
  · intro hub cmb_id rest comb id b hub2 tr hok hcomb hmem hb hact hrefs
    simp only [queue_submit] at hok
    cases hpa : processAll (hub.device.submission_index + 1)
        (initLoopState hub) (cmb_id :: rest) with
    | error e => rw [hpa] at hok; simp at hok
    | ok st =>
      rw [hpa] at hok
      rw [Except.ok.injEq, Prod.mk.injEq] at hok
      obtain ⟨h1, h2⟩ := hok
      simp only [processAll] at hpa
      cases hpc : processCommandBuffer (hub.device.submission_index + 1)
          (initLoopState hub) cmb_id with
      | error e => rw [hpc] at hpa; simp at hpa
      | ok st1 =>
        rw [hpc] at hpa
        obtain ⟨comb0, stA, comb1, pu, hl, hsw, hpu, hbuf1, hsusp1, htrace1, -⟩ :=
          processCommandBuffer_ok _ _ _ _ hpc
        rw [initLoopState_command_buffers, hcomb] at hl
        injection hl with hl
        subst hl
        obtain ⟨-, htrk1, hbufA, htsA, -, -, -, -⟩ := stepSwapChain_ok _ _ _ _ _ hsw
        obtain ⟨hwarn, hsusp, hidle⟩ := processUsedBuffers_active_dropped
          (hub.device.submission_index + 1) id b hact hrefs comb1.trackers.buffers
          stA.buffers stA.temp_suspected.buffers stA.trace pu hpu
          (by rw [htrk1]; exact hmem)
          (by rw [hbufA, initLoopState_buffers]; exact hb)
        obtain ⟨⟨e1, he1, -⟩, ⟨e2, he2⟩, hidlepres, -, -⟩ :=
          processAll_facts _ rest st1 st hpa
        have hwst : Event.warnDroppedMapping id ∈ st.trace := by
          rw [he1, htrace1]
          exact List.mem_append_left e1 hwarn
        have hsst : id ∈ st.temp_suspected.buffers := by
          rw [he2, hsusp1]
          exact List.mem_append_left e2 hsusp
        have hist : (lookupAssoc st.buffers id).map (fun bb => bb.map_state) =
            some .idle := by
          refine hidlepres id ?_
          rw [hbuf1]
          exact hidle
        refine ⟨?_, ?_, ?_⟩
        · rw [← h2]
          simp only [List.mem_append]
          exact Or.inl (Or.inl (Or.inl (Or.inl (Or.inl (Or.inl (Or.inl hwst))))))
        · rw [← h1]
          exact hsst
        · rw [← h1]
          exact hist

/-- Witness for C1's amended theorem at concrete inputs: the `Waiting` case
fails fatally; the dropped-`Active` case emits the warning and continues. -/
theorem queue_submit_mapping_policy_witness :
    (∃ e, queue_submit (exHub .waiting true) [1] = .error e)
    ∧ Event.warnDroppedMapping 0 ∈
        submitTrace (queue_submit (exHub .active false) [1]) := by
  constructor
  · exact queue_submit_mapping_policy.1 (exHub .waiting true) 1 [] exCommandBuffer 0
      (exBuffer .waiting true) rfl (by decide) rfl rfl
  · have hok : exceptOk (queue_submit (exHub .active false) [1]) = true := by decide
    obtain ⟨hub2, tr, hq⟩ : ∃ hub2 tr,
        queue_submit (exHub .active false) [1] = .ok (hub2, tr) := by
      cases hq : queue_submit (exHub .active false) [1] with
      | error e => rw [hq] at hok; simp [exceptOk] at hok
      | ok p =>
        obtain ⟨hub2, tr⟩ := p
        exact ⟨hub2, tr, rfl⟩
    have hres := queue_submit_mapping_policy.2 (exHub .active false) 1 []
      exCommandBuffer 0 (exBuffer .active false) hub2 tr hq rfl (by decide) rfl rfl rfl
    rw [hq]
    exact hres.1

theorem queue_submit_ok_shape (hub : Hub) (ids : List Nat) (hub2 : Hub)
    (tr : List Event) (hok : queue_submit hub ids = .ok (hub2, tr)) :
    ∃ st pend,
      processAll (hub.device.submission_index + 1) (initLoopState hub) ids = .ok st
      ∧ (pend = [] ∨ ∃ c, hub.device.pending_writes.command_buffer = some c
            ∧ pend = [Event.afterSubmitInternal c.handle
                (hub.device.submission_index + 1)])
      ∧ hub2.device.temp_suspected = st.temp_suspected
      ∧ hub2.device.pending_writes.temp_buffers = []
      ∧ hub2.buffers = st.buffers
      ∧ hub2.device.life_tracker.records =
          (maintain hub.device.signaled_fences hub.device.life_tracker).records ++
            [{ index := hub.device.submission_index + 1, fence := st.next_handle,
               suspected := st.temp_suspected,
               temp_buffers := hub.device.pending_writes.temp_buffers }]
      ∧ ∃ bufs sems,
          tr = st.trace ++ [Event.hardwareSubmit bufs st.next_handle sems] ++ pend
            ++ (maintain hub.device.signaled_fences hub.device.life_tracker).trace
            ++ [Event.maintainPass
                  (maintain hub.device.signaled_fences hub.device.life_tracker).callbacks]
            ++ [Event.trackSubmission (hub.device.submission_index + 1) st.next_handle]
            ++ ids.map (fun id => Event.afterSubmit id (hub.device.submission_index + 1))
            ++ [Event.locksReleased,
                Event.fireCallbacks
                  (maintain hub.device.signaled_fences hub.device.life_tracker).callbacks]
          ∧ bufs = (hub.device.pending_writes.command_buffer.map
                (fun c => c.handle)).toList
              ++ ids.flatMap (fun id => rawHandlesOf st.command_buffers id)
          ∧ sems = st.signal_sems.map (fun s => semaphoreOf st.swap_chains s) := by
  cases hpw : hub.device.pending_writes.command_buffer with
  | none =>
    simp only [queue_submit, hpw, Option.map_none'] at hok
    cases hpa : processAll (hub.device.submission_index + 1) (initLoopState hub) ids with
    | error e => rw [hpa] at hok; simp at hok
    | ok st =>
      rw [hpa] at hok
      rw [Except.ok.injEq, Prod.mk.injEq] at hok
      obtain ⟨h1, h2⟩ := hok
      refine ⟨st, [], by first | rfl | exact hpa, Or.inl rfl, by rw [← h1],
        by rw [← h1], by rw [← h1], by rw [← h1], ?_⟩
      refine ⟨(hub.device.pending_writes.command_buffer.map
            (fun c => c.handle)).toList
          ++ ids.flatMap (fun id => rawHandlesOf st.command_buffers id),
        st.signal_sems.map (fun s => semaphoreOf st.swap_chains s), ?_,
        by rw [hpw], rfl⟩
      rw [← h2]
      simp only [hpw, Option.map_none', Option.toList, List.append_assoc,
        List.append_nil, List.nil_append, List.cons_append, List.singleton_append]
  | some c =>
    simp only [queue_submit, hpw, Option.map_some'] at hok
    cases hpa : processAll (hub.device.submission_index + 1) (initLoopState hub) ids with
    | error e => rw [hpa] at hok; simp at hok
    | ok st =>
      rw [hpa] at hok
      rw [Except.ok.injEq, Prod.mk.injEq] at hok
      obtain ⟨h1, h2⟩ := hok
      refine ⟨st, [Event.afterSubmitInternal c.handle (hub.device.submission_index + 1)],
        by first | rfl | exact hpa, Or.inr ⟨c, rfl, rfl⟩, by rw [← h1], by rw [← h1],
        by rw [← h1], by rw [← h1], ?_⟩
      refine ⟨(hub.device.pending_writes.command_buffer.map
            (fun c => c.handle)).toList
          ++ ids.flatMap (fun id => rawHandlesOf st.command_buffers id),
        st.signal_sems.map (fun s => semaphoreOf st.swap_chains s), ?_,
        by rw [hpw], rfl⟩
      rw [← h2]
      simp only [hpw, Option.map_some', Option.toList, List.append_assoc,
        List.append_nil, List.nil_append, List.cons_append, List.singleton_append]

theorem Event.isWarn_shape (e : Event) (h : e.isWarn = true) :
    ∃ id, e = .warnDroppedMapping id := by
  cases e
  case warnDroppedMapping id => exact ⟨id, rfl⟩
  all_goals simp [Event.isWarn] at h

/-- C3 counterexample: on an empty submission over a fresh device, the trace
of `queue_submit` places the maintenance pass (index 1) strictly *before* the
Life Tracker hand-off (index 2) — the code runs `device.maintain` first and
`track_submission` after it, so the claim's ordering (record handed over
before the maintenance pass) is false. -/
theorem handoff_before_maintain_counterexample :
    (submitTrace (queue_submit exHubEmpty [])).findIdx Event.isMaintainPass = 1
    ∧ (submitTrace (queue_submit exHubEmpty [])).findIdx Event.isTrackSubmission = 2
    ∧ Event.maintainPass [] ∈ submitTrace (queue_submit exHubEmpty [])
    ∧ Event.trackSubmission 1 30 ∈ submitTrace (queue_submit exHubEmpty []) := by
  decide

/-- C3 (amended): in every successful `queue_submit`, the single non-blocking
maintenance pass runs (and collects its callbacks) *before* the new
Submission Record is handed to the Life Tracker, and exactly those collected
callbacks are fired at the very end of the call, after all device locks are
released — no maintenance, hand-off or callback firing occurs earlier in the
trace. -/
theorem queue_submit_maintain_then_handoff (hub : Hub) (ids : List Nat)
    (hub2 : Hub) (tr : List Event)
    (hok : queue_submit hub ids = .ok (hub2, tr)) :
    ∃ pre cbs f,
      tr = pre ++ [Event.maintainPass cbs,
          Event.trackSubmission (hub.device.submission_index + 1) f]
        ++ ids.map (fun id => Event.afterSubmit id (hub.device.submission_index + 1))
        ++ [Event.locksReleased, Event.fireCallbacks cbs]
      ∧ ∀ e ∈ pre, e.isMaintainPass = false ∧ e.isTrackSubmission = false
          ∧ e.isFireCallbacks = false := by
  obtain ⟨st, pend, hpa, hpend, -, -, -, -, bufs, sems, htr, -, -⟩ :=
    queue_submit_ok_shape hub ids hub2 tr hok
  refine ⟨st.trace ++ [Event.hardwareSubmit bufs st.next_handle sems] ++ pend
      ++ (maintain hub.device.signaled_fences hub.device.life_tracker).trace,
    (maintain hub.device.signaled_fences hub.device.life_tracker).callbacks,
    st.next_handle, ?_, ?_⟩
  · rw [htr]
    simp [List.append_assoc]
  · obtain ⟨ext, he1, hwarn⟩ :=
      (processAll_facts (hub.device.submission_index + 1) ids _ st hpa).1
    rw [initLoopState_trace, List.nil_append] at he1
    intro e he
    rcases List.mem_append.mp he with he2 | he2
    · rcases List.mem_append.mp he2 with he3 | he3
      · rcases List.mem_append.mp he3 with he4 | he4
        · -- an event of the per-command-buffer loop: a warning
          obtain ⟨id, rfl⟩ := Event.isWarn_shape e (hwarn e (he1 ▸ he4))
          exact ⟨rfl, rfl, rfl⟩
        · -- the hardware submission event
          rw [List.mem_singleton] at he4
          subst he4
          exact ⟨rfl, rfl, rfl⟩
      · -- the pending-writes return event (if any)
        rcases hpend with hpend | ⟨c, -, hpend⟩
        · rw [hpend] at he3
          cases he3
        · rw [hpend, List.mem_singleton] at he3
          subst he3
          exact ⟨rfl, rfl, rfl⟩
    · -- a freed-temp-buffer event of the maintenance pass
      obtain ⟨hdl, rfl, -⟩ := maintainLoop_trace_frees
        hub.device.signaled_fences hub.device.life_tracker.records
        hub.device.life_tracker.pending_callbacks e he2
      exact ⟨rfl, rfl, rfl⟩

/-- Witness for C3's amended theorem at a concrete input. -/
theorem queue_submit_maintain_then_handoff_witness :
    ∃ pre cbs f,
      submitTrace (queue_submit exHubEmpty []) =
        pre ++ [Event.maintainPass cbs, Event.trackSubmission 1 f]
          ++ List.map (fun id => Event.afterSubmit id 1) []
          ++ [Event.locksReleased, Event.fireCallbacks cbs] := by
  have hok : exceptOk (queue_submit exHubEmpty []) = true := by decide
  obtain ⟨hub2, tr, hq⟩ : ∃ hub2 tr, queue_submit exHubEmpty [] = .ok (hub2, tr) := by
    cases hq : queue_submit exHubEmpty [] with
    | error e => rw [hq] at hok; simp [exceptOk] at hok
    | ok p =>
      obtain ⟨hub2, tr⟩ := p
      exact ⟨hub2, tr, rfl⟩
  obtain ⟨pre, cbs, f, htr, -⟩ :=
    queue_submit_maintain_then_handoff exHubEmpty [] hub2 tr hq
  exact ⟨pre, cbs, f, by rw [hq]; exact htr⟩

/-- A sample device with an open pending-writes command buffer (handle 50)
and one staging pair (buffer 51, memory 52) awaiting hand-off. -/
def exDevicePW : Device :=
  { submission_index := 0, next_handle := 60,
    pending_writes := ⟨some ⟨50, [], false⟩, [(⟨51, [1, 2]⟩, 52)]⟩,
    temp_suspected := .empty, trackers := ⟨[], []⟩, life_tracker := ⟨[], []⟩,
    signaled_fences := [] }

/-- A sample hub around `exDevicePW` with no command buffers. -/
def exHubPW : Hub := { exHubEmpty with device := exDevicePW }

/-- C8: after every successful `queue_submit`, the pending-writes temp-buffer
sequence is empty; the new Submission Record (the last record of the Life
Tracker) owns exactly the staging pairs the pending writes held, under the
submission index allocated by this call; and every temp buffer actually freed
during the call belonged to an *earlier* submission record whose fence was
already observed signaled — no staging buffer of the new record is freed. -/
theorem queue_submit_temp_buffer_handoff (hub : Hub) (ids : List Nat)
    (hub2 : Hub) (tr : List Event)
    (hok : queue_submit hub ids = .ok (hub2, tr)) :
    hub2.device.pending_writes.temp_buffers = []
    ∧ (∃ r, hub2.device.life_tracker.records.getLast? = some r
        ∧ r.temp_buffers = hub.device.pending_writes.temp_buffers
        ∧ r.index = hub.device.submission_index + 1)
    ∧ (∀ hdl, Event.freeTempBuffer hdl ∈ tr →
        ∃ r0 ∈ hub.device.life_tracker.records,
          r0.fence ∈ hub.device.signaled_fences
            ∧ hdl ∈ r0.temp_buffers.map (fun tb => tb.1.handle)) := by
  obtain ⟨st, pend, hpa, hpend, -, hptb, -, hrec, bufs, sems, htr, -, -⟩ :=
    queue_submit_ok_shape hub ids hub2 tr hok
  refine ⟨hptb, ⟨_, by rw [hrec]; exact List.getLast?_concat _, rfl, rfl⟩, ?_⟩
  intro hdl hmem
  rw [htr] at hmem
  obtain ⟨ext, he1, hwarn⟩ :=
    (processAll_facts (hub.device.submission_index + 1) ids _ st hpa).1
  rcases List.mem_append.mp hmem with h7 | hLast
  rotate_left
  · simp at hLast
  rcases List.mem_append.mp h7 with h6 | hAsubs
  rotate_left
  · obtain ⟨id, -, heq⟩ := List.mem_map.mp hAsubs
    simp at heq
  rcases List.mem_append.mp h6 with h5 | hTrack
  rotate_left
  · simp at hTrack
  rcases List.mem_append.mp h5 with h4 | hMp
  rotate_left
  · simp at hMp
  rcases List.mem_append.mp h4 with h3 | hM
  rotate_left
  · obtain ⟨hdl2, heq, r0, hr0, hf, hm⟩ := maintainLoop_trace_frees
      hub.device.signaled_fences hub.device.life_tracker.records
      hub.device.life_tracker.pending_callbacks _ hM
    injection heq with heq
    exact ⟨r0, hr0, hf, heq ▸ hm⟩
  rcases List.mem_append.mp h3 with h2 | hPend
  rotate_left
  · rcases hpend with hpend | ⟨c, -, hpend⟩
    · rw [hpend] at hPend
      cases hPend
    · rw [hpend] at hPend
      simp at hPend
  rcases List.mem_append.mp h2 with hSt | hHw
  rotate_left
  · simp at hHw
  have := hwarn _ (by rw [initLoopState_trace, List.nil_append] at he1; exact he1 ▸ hSt)
  simp [Event.isWarn] at this

/-- Witness for C8 at a concrete input with one pending staging pair. -/
theorem queue_submit_temp_buffer_handoff_witness :
    (submitHub exHubPW (queue_submit exHubPW [])).device.pending_writes.temp_buffers = []
    ∧ ∃ r, (submitHub exHubPW
          (queue_submit exHubPW [])).device.life_tracker.records.getLast? = some r
        ∧ r.temp_buffers = [(⟨51, [1, 2]⟩, 52)] := by
  have hok : exceptOk (queue_submit exHubPW []) = true := by decide
  obtain ⟨hub2, tr, hq⟩ : ∃ hub2 tr, queue_submit exHubPW [] = .ok (hub2, tr) := by
    cases hq : queue_submit exHubPW [] with
    | error e => rw [hq] at hok; simp [exceptOk] at hok
    | ok p =>
      obtain ⟨hub2, tr⟩ := p
      exact ⟨hub2, tr, rfl⟩
  obtain ⟨h1, ⟨r, hr1, hr2, -⟩, -⟩ := queue_submit_temp_buffer_handoff exHubPW [] hub2 tr hq
  rw [hq]
  exact ⟨h1, r, hr1, hr2⟩

/-- C5: the hardware submission of a successful `queue_submit` is unique in
the trace and contains, in order: the pending-writes command buffer handle if
one exists, then for each submitted command buffer (in caller order) a chunk
consisting of a fresh transition command buffer immediately followed by the
command buffer's recorded chain; it signals the single freshly created fence
(the same one handed to the Life Tracker), and every signaled semaphore
belongs to a swap chain that was used by a submitted command buffer and had
zero acquired framebuffers at submission time. -/
theorem queue_submit_submission_structure (hub : Hub) (ids : List Nat)
    (hub2 : Hub) (tr : List Event)
    (hok : queue_submit hub ids = .ok (hub2, tr))
    (hnd : ids.Nodup)
    (hnu : (usedSwapChains hub.command_buffers ids).Nodup) :
    ∃ bufs f sems chunkOf,
      tr.filter Event.isHardwareSubmit = [Event.hardwareSubmit bufs f sems]
      ∧ bufs = (hub.device.pending_writes.command_buffer.map
            (fun c => c.handle)).toList ++ ids.flatMap chunkOf
      ∧ (∀ id ∈ ids, ∃ t comb0, lookupAssoc hub.command_buffers id = some comb0
          ∧ chunkOf id = t :: comb0.raw.map (fun r => r.handle))
      ∧ (∃ sclist : List Nat, sems = sclist.map (fun s => semaphoreOf hub.swap_chains s)
          ∧ ∀ s ∈ sclist, ∃ id ∈ ids, ∃ c fbo sc,
              lookupAssoc hub.command_buffers id = some c
              ∧ c.used_swap_chain = some (s, fbo)
              ∧ lookupAssoc hub.swap_chains s = some sc
              ∧ sc.acquired_framebuffers = [])
      ∧ Event.trackSubmission (hub.device.submission_index + 1) f ∈ tr := by
  obtain ⟨st, pend, hpa, hpend, -, -, -, -, bufs0, sems0, htr, hbufs, hsems⟩ :=
    queue_submit_ok_shape hub ids hub2 tr hok
  obtain ⟨⟨ext, he1, hwarn⟩, -, -, -, hsem⟩ :=
    processAll_facts (hub.device.submission_index + 1) ids _ st hpa
  rw [initLoopState_trace, List.nil_append] at he1
  refine ⟨bufs0, st.next_handle, sems0,
    fun id => rawHandlesOf st.command_buffers id, ?_, hbufs, ?_, ?_, ?_⟩
  · -- the unique hardware-submission event
    have hfSt : st.trace.filter Event.isHardwareSubmit = [] := by
      rw [List.filter_eq_nil_iff]
      intro e he
      obtain ⟨id, rfl⟩ := Event.isWarn_shape e (hwarn e (he1 ▸ he))
      simp [Event.isHardwareSubmit]
    have hfPend : pend.filter Event.isHardwareSubmit = [] := by
      rcases hpend with hpend | ⟨c, -, hpend⟩ <;>
        simp [hpend, Event.isHardwareSubmit]
    have hfM : ((maintain hub.device.signaled_fences
        hub.device.life_tracker).trace).filter Event.isHardwareSubmit = [] := by
      rw [List.filter_eq_nil_iff]
      intro e he
      obtain ⟨hdl, rfl, -⟩ := maintainLoop_trace_frees
        hub.device.signaled_fences hub.device.life_tracker.records
        hub.device.life_tracker.pending_callbacks e he
      simp [Event.isHardwareSubmit]
    have hfAsubs : (ids.map (fun id => Event.afterSubmit id
        (hub.device.submission_index + 1))).filter Event.isHardwareSubmit = [] := by
      rw [List.filter_eq_nil_iff]
      intro e he
      obtain ⟨id, -, heq⟩ := List.mem_map.mp he
      rw [← heq]
      simp [Event.isHardwareSubmit]
    rw [htr]
    simp only [List.filter_append]
    rw [hfSt, hfPend, hfM, hfAsubs]
    simp [Event.isHardwareSubmit, List.filter]
  · -- chunk structure per command buffer
    intro id hid
    obtain ⟨t, comb0, hl, hch⟩ := processAll_chunks
      (hub.device.submission_index + 1) ids _ st hpa hnd id hid
    rw [initLoopState_command_buffers] at hl
    exact ⟨t, comb0, hl, hch⟩
  · -- signaled semaphores
    refine ⟨st.signal_sems, ?_, ?_⟩
    · rw [hsems]
      refine List.map_congr_left ?_
      intro s hs
      rw [hsem s, initLoopState_swap_chains]
    · intro s hs
      have hres := processAll_signal_sems (hub.device.submission_index + 1) ids _ st
        hpa hnd (by rw [initLoopState_command_buffers]; exact hnu) s hs
      rcases hres with hres | ⟨id, hid, c, fbo, sc, hl, hu, hsc, hfb⟩
      · rw [initLoopState_signal_sems] at hres
        cases hres
      · rw [initLoopState_command_buffers] at hl
        rw [initLoopState_swap_chains] at hsc
        exact ⟨id, hid, c, fbo, sc, hl, hu, hsc, hfb⟩
  · -- the fence handed to the Life Tracker is the one the submission signals
    rw [htr]
    apply List.mem_append_left
    apply List.mem_append_left
    apply List.mem_append_right
    simp

/-- A sample command buffer with no tracked resources and no swap chain. -/
def exCommandBufferPlain : CommandBuffer :=
  { raw := [⟨20, [], false⟩], trackers := exTrackersEmpty, used_swap_chain := none }

/-- A sample hub with a pending-writes command buffer and one plain command
buffer (id 1) to submit. -/
def exHubC5 : Hub :=
  { exHubEmpty with
      device := exDevicePW,
      command_buffers := [(1, exCommandBufferPlain)] }

/-- Witness for C5 at a concrete input. -/
theorem queue_submit_submission_structure_witness :
    ∃ bufs f sems,
      (submitTrace (queue_submit exHubC5 [1])).filter Event.isHardwareSubmit
        = [Event.hardwareSubmit bufs f sems] := by
  have hok : exceptOk (queue_submit exHubC5 [1]) = true := by decide
  obtain ⟨hub2, tr, hq⟩ : ∃ hub2 tr, queue_submit exHubC5 [1] = .ok (hub2, tr) := by
    cases hq : queue_submit exHubC5 [1] with
    | error e => rw [hq] at hok; simp [exceptOk] at hok
    | ok p =>
      obtain ⟨hub2, tr⟩ := p
      exact ⟨hub2, tr, rfl⟩
  obtain ⟨bufs, f, sems, chunkOf, hfil, -⟩ :=
    queue_submit_submission_structure exHubC5 [1] hub2 tr hq (by decide) (by decide)
  exact ⟨bufs, f, sems, by rw [hq]; exact hfil⟩

end WgpuQueue
